import Mathlib

/-!
Verification of the flipcard store layer (`src/lib/store.ts`) and the
import/export text transforms (`src/pages/ImportExport.tsx`).

The development shallowly embeds the TypeScript source: pure functions become
Lean functions, the mutable in-memory store becomes explicit state passing
(each operation returns the new store state together with its `Except` result,
an exception thrown by the source being an `.error`), and the zod schemas
become parsers over a JSON value type.

JS runtime primitives that the source calls (`String.prototype.trim`,
`Date.parse` / `new Date(s)`, `Date.prototype.toISOString`) are not
repository code; they are modelled by concrete executable functions below
that capture exactly the properties the source relies on.

The file is organised as: all definitions first, then all theorems.
-/

namespace Flipcard

/-! ## Model of the JS `Date` runtime primitives

The source uses dates only through `new Date(s).toISOString()` (canonicalize a
parseable date string), `Date.parse(s)` (`NaN` on unparseable input, modelled
as `Option Int` of epoch milliseconds) and `new Date().toISOString()` (a fresh
canonical timestamp).  The model represents an instant by its epoch-millisecond
count; a parseable date string is an optionally-signed decimal numeral
(standing in for the date formats the JS runtime accepts, including
non-canonical ones such as numerals with leading zeros), and `toISOString`
renders the canonical numeral.  This captures the properties the source relies
on: `toISOString` output is canonical and re-parses to the same instant, and
unparseable strings are rejected (`new Date(s).toISOString()` throws on them,
modelled as `Except`). -/

def digitChar : Nat → Char
  | 0 => '0' | 1 => '1' | 2 => '2' | 3 => '3' | 4 => '4'
  | 5 => '5' | 6 => '6' | 7 => '7' | 8 => '8' | 9 => '9'
  | _ => '?'

def digitVal : Char → Nat
  | '0' => 0 | '1' => 1 | '2' => 2 | '3' => 3 | '4' => 4
  | '5' => 5 | '6' => 6 | '7' => 7 | '8' => 8 | '9' => 9
  | _ => 10

def isDigitCh (c : Char) : Bool := digitVal c < 10

/-- Little-endian decimal digits of `n`, with `fuel ≥ n` ensuring termination. -/
def natDigitsAux : Nat → Nat → List Char
  | 0, _ => []
  | _ + 1, 0 => []
  | fuel + 1, n + 1 => digitChar ((n + 1) % 10) :: natDigitsAux fuel ((n + 1) / 10)

/-- Canonical (big-endian, no leading zeros) decimal numeral of `n`. -/
def natToChars (n : Nat) : List Char :=
  if n = 0 then ['0'] else (natDigitsAux n n).reverse

def parseNatAcc : Nat → List Char → Nat
  | acc, [] => acc
  | acc, c :: rest => parseNatAcc (acc * 10 + digitVal c) rest

/-- Parse a nonempty all-digit character list (leading zeros allowed). -/
def parseNatChars (l : List Char) : Option Nat :=
  if l.isEmpty then none
  else if l.all isDigitCh then some (parseNatAcc 0 l) else none

def intRepr (i : Int) : List Char :=
  if i < 0 then '-' :: natToChars i.natAbs else natToChars i.natAbs

def parseIntChars : List Char → Option Int
  | [] => none
  | c :: rest =>
    if c = '-' then (parseNatChars rest).map (fun n => -(n : Int))
    else (parseNatChars (c :: rest)).map (fun n => (n : Int))

/-- Model of `Date.prototype.toISOString` on an instant: the canonical date string. -/
def dateToISO (t : Int) : String := String.mk (intRepr t)

/-- Model of `Date.parse`: epoch milliseconds, or `none` standing for `NaN`. -/
def dateParse (s : String) : Option Int := parseIntChars s.data

/-- Decimal value of a little-endian digit list (proof helper). -/
def valLE : List Char → Nat
  | [] => 0
  | c :: rest => digitVal c + 10 * valLE rest

/-! ## Model of JS `String.prototype.trim` -/

def isJsSpace (c : Char) : Bool := c.isWhitespace

def trimChars (l : List Char) : List Char :=
  ((l.dropWhile isJsSpace).reverse.dropWhile isJsSpace).reverse

/-- Model of `s.trim()`. -/
def jsTrim (s : String) : String := String.mk (trimChars s.data)

/-- Drop the matching suffix (proof helper; `trimChars` is `rdropW ∘ dropWhile`). -/
def rdropW (p : Char → Bool) (l : List Char) : List Char := (l.reverse.dropWhile p).reverse

/-! ## Data model (`store.ts` lines 4-29)

`Deck`, `Card`, `Settings`, `StoreState` are direct translations of the
exported interfaces.  A TypeScript optional/`undefined` field becomes
`Option`; the `Record<string, Card[]>` becomes an insertion-ordered
association list with JS object semantics (`objLookup` first match,
`objInsert` update-in-place-or-append, `objDelete` key removal). -/

inductive StudyMode
  | ordered
  | shuffle
deriving DecidableEq, Repr

structure Deck where
  id : String
  title : String
  description : Option String
  createdAt : String
  updatedAt : String
deriving DecidableEq, Repr

structure Card where
  id : String
  front : String
  back : String
deriving DecidableEq, Repr

structure Settings where
  defaultStudyMode : StudyMode
  rememberLastDeck : Bool
  reducedMotion : Bool
  lastDeckId : Option String
deriving DecidableEq, Repr

structure StoreState where
  decks : List Deck
  cardsByDeck : List (String × List Card)
  settings : Settings
deriving DecidableEq, Repr

/-- `defaultSettings` (`store.ts` lines 33-38). -/
def defaultSettings : Settings :=
  { defaultStudyMode := .ordered
    rememberLastDeck := false
    reducedMotion := false
    lastDeckId := none }

def objLookup : List (String × α) → String → Option α
  | [], _ => none
  | (k, v) :: rest, key => if k = key then some v else objLookup rest key

def objInsert : List (String × α) → String → α → List (String × α)
  | [], key, v => [(key, v)]
  | (k, w) :: rest, key, v =>
    if k = key then (k, v) :: rest else (k, w) :: objInsert rest key v

def objDelete : List (String × α) → String → List (String × α)
  | [], _ => []
  | (k, v) :: rest, key => if k = key then objDelete rest key else (k, v) :: objDelete rest key

/-- First-error-wins effectful map over `Except` (models a JS `map` whose
callback can throw, and zod array parsing). -/
def mapExcept (f : α → Except ε β) : List α → Except ε (List β)
  | [] => .ok []
  | x :: xs =>
    match f x with
    | .error e => .error e
    | .ok y =>
      match mapExcept f xs with
      | .error e => .error e
      | .ok ys => .ok (y :: ys)

/-- Replace the first element satisfying `p` (models mutating the object
returned by `Array.prototype.find`). -/
def updateFirst (p : α → Bool) (f : α → α) : List α → List α
  | [] => []
  | x :: xs => if p x then f x :: xs else x :: updateFirst p f xs

/-- Remove the first element satisfying `p` (models `splice(index, 1)` after
`findIndex`). -/
def removeFirst (p : α → Bool) : List α → List α
  | [] => []
  | x :: xs => if p x then xs else x :: removeFirst p xs

/-! ## Normalizer (`store.ts` lines 214-254) -/

/-- Partially-populated settings as fed to `normalizeSettings`
(`Partial<Settings> | undefined` merged over `defaultSettings`; a `none`
field stands for absent-or-`undefined`, which behave identically here
because every default is `"ordered"`/`false`/`undefined`). -/
structure PartialSettings where
  defaultStudyMode : Option StudyMode
  rememberLastDeck : Option Bool
  reducedMotion : Option Bool
  lastDeckId : Option String
deriving DecidableEq, Repr

/-- `normalizeSettings` (`store.ts` lines 214-226): merge over defaults,
coerce `defaultStudyMode` to a valid mode, booleans through `Boolean(...)`,
and force `lastDeckId` absent unless `rememberLastDeck`. -/
def normalizeSettingsP (s : PartialSettings) : Settings :=
  { defaultStudyMode := match s.defaultStudyMode with
      | some .shuffle => .shuffle
      | _ => .ordered
    rememberLastDeck := s.rememberLastDeck.getD false
    reducedMotion := s.reducedMotion.getD false
    lastDeckId := if s.rememberLastDeck.getD false then s.lastDeckId else none }

def Settings.toPartial (s : Settings) : PartialSettings :=
  { defaultStudyMode := some s.defaultStudyMode
    rememberLastDeck := some s.rememberLastDeck
    reducedMotion := some s.reducedMotion
    lastDeckId := s.lastDeckId }

def normalizeSettings (s : Settings) : Settings := normalizeSettingsP s.toPartial

/-- `deck.description?.trim() || undefined` — trim, empty becomes absent. -/
def normDesc : Option String → Option String
  | none => none
  | some s => let t := jsTrim s; if t = "" then none else some t

/-- One deck inside `normalizeStore`: trim `title`/`description`, re-serialize
both timestamps through parse-then-format (`new Date(x).toISOString()` throws
on an unparseable `x`, modelled as `.error`). -/
def normalizeDeck (d : Deck) : Except String Deck :=
  match dateParse d.createdAt, dateParse d.updatedAt with
  | some ca, some ua =>
    .ok { d with
      title := jsTrim d.title
      description := normDesc d.description
      createdAt := dateToISO ca
      updatedAt := dateToISO ua }
  | _, _ => .error "Invalid time value"

def normalizeCard (c : Card) : Card :=
  { c with front := jsTrim c.front, back := jsTrim c.back }

/-- The `store.cardsByDeck[deck.id] ?? []` entry rebuilt for one deck id. -/
def rebuildEntry (src : List (String × List Card)) (deckId : String) : List Card :=
  ((objLookup src deckId).getD []).map normalizeCard

/-- `normalizeStore`'s `cardsByDeck` loop (`store.ts` lines 237-245): one entry
per (normalized) deck, in deck order; entries of vanished decks are dropped. -/
def rebuildCards (src : List (String × List Card)) (decks : List Deck) :
    List (String × List Card) :=
  decks.foldl (fun acc d => objInsert acc d.id (rebuildEntry src d.id)) []

/-- `normalizeStore` (`store.ts` lines 228-254). -/
def normalizeStore (st : StoreState) : Except String StoreState :=
  match mapExcept normalizeDeck st.decks with
  | .error e => .error e
  | .ok decks =>
    .ok { decks := decks
          cardsByDeck := rebuildCards st.cardsByDeck decks
          settings := normalizeSettings st.settings }

/-! ## Store engine (`store.ts` lines 312-546)

`mutateStore` snapshots the store, runs the mutator on the clone (so a thrown
error leaves `inMemoryStore` untouched), normalizes the draft and installs it.
Cloning is the identity on pure values; `persist` only re-validates and writes
the already-normalized store, so it is not modelled as a failure source.  Each
public operation returns the resulting in-memory store state paired with the
operation's result (`.error` = thrown exception). -/

def mutateStore (st : StoreState) (mutator : StoreState → Except String (StoreState × α)) :
    StoreState × Except String α :=
  match mutator st with
  | .error e => (st, .error e)
  | .ok (draft, r) =>
    match normalizeStore draft with
    | .error e => (st, .error e)
    | .ok n => (n, .ok r)

/-- Lexicographic (code-unit) order on character lists; models the ordering
`String.prototype.localeCompare` induces on the canonical date strings. -/
def charListLe : List Char → List Char → Bool
  | [], _ => true
  | _ :: _, [] => false
  | a :: as, b :: bs => if a = b then charListLe as bs else decide (a.toNat < b.toNat)

/-- `a.localeCompare(b) ≤ 0`, i.e. `a` sorts no later than `b`. -/
def localeLe (a b : String) : Bool := charListLe a.data b.data

/-- `listDecks` (`store.ts` lines 325-327): decks sorted by `updatedAt`
descending (stable, as JS `Array.prototype.sort` is). -/
def listDecks (st : StoreState) : List Deck :=
  List.insertionSort (fun a b => localeLe b.updatedAt a.updatedAt = true) st.decks

/-- `listCards` (`store.ts` lines 419-421). -/
def listCards (st : StoreState) (deckId : String) : List Card :=
  (objLookup st.cardsByDeck deckId).getD []

structure CreateDeckInput where
  title : String
  description : Option String
deriving DecidableEq, Repr

/-- `createDeck` (`store.ts` lines 339-361).  `freshId` models `generateId()`
and `nowMs` the instant of `new Date().toISOString()`. -/
def createDeck (freshId : String) (nowMs : Int) (st : StoreState)
    (input : CreateDeckInput) : StoreState × Except String Deck :=
  let trimmedTitle := jsTrim input.title
  if trimmedTitle = "" then (st, .error "Deck title is required")
  else
    mutateStore st (fun draft =>
      let deck : Deck :=
        { id := freshId
          title := trimmedTitle
          description := normDesc input.description
          createdAt := dateToISO nowMs
          updatedAt := dateToISO nowMs }
      .ok ({ draft with
              decks := draft.decks ++ [deck]
              cardsByDeck := objInsert draft.cardsByDeck deck.id [] }, deck))

/-- `UpdateDeckInput`: `title?: string; description?: string | null`.
For `description`, `none` = key absent, `some none` = `null`,
`some (some s)` = a string. -/
structure UpdateDeckInput where
  title : Option String
  description : Option (Option String)
deriving DecidableEq, Repr

/-- `updateDeck` (`store.ts` lines 368-396). -/
def updateDeck (nowMs : Int) (st : StoreState) (deckId : String)
    (changes : UpdateDeckInput) : StoreState × Except String Deck :=
  mutateStore st (fun draft =>
    match draft.decks.find? (fun d => d.id = deckId) with
    | none => .error ("Deck " ++ deckId ++ " not found")
    | some deck0 =>
      match (match changes.title with
             | none => .ok deck0.title
             | some t =>
               let trimmed := jsTrim t
               if trimmed = "" then .error "Deck title cannot be empty" else .ok trimmed :
             Except String String) with
      | .error e => .error e
      | .ok newTitle =>
        let newDescription :=
          match changes.description with
          | some (some s) => normDesc (some s)
          | some none => none
          | none => deck0.description
        let newDeck := { deck0 with
          title := newTitle
          description := newDescription
          updatedAt := dateToISO nowMs }
        .ok ({ draft with
                decks := updateFirst (fun d => d.id = deckId) (fun _ => newDeck) draft.decks },
             newDeck))

/-- `deleteDeck` (`store.ts` lines 398-412). -/
def deleteDeck (st : StoreState) (deckId : String) : StoreState × Except String Unit :=
  mutateStore st (fun draft =>
    if draft.decks.any (fun d => d.id = deckId) then
      .ok ({ draft with
              decks := removeFirst (fun d => d.id = deckId) draft.decks
              cardsByDeck := objDelete draft.cardsByDeck deckId
              settings :=
                if draft.settings.lastDeckId = some deckId then
                  { draft.settings with lastDeckId := none }
                else draft.settings }, ())
    else .error ("Deck " ++ deckId ++ " not found"))

structure CardInput where
  front : String
  back : String
deriving DecidableEq, Repr

/-- `addCard` (`store.ts` lines 423-452). -/
def addCard (freshId : String) (nowMs : Int) (st : StoreState) (deckId : String)
    (input : CardInput) : StoreState × Except String Card :=
  let trimmedFront := jsTrim input.front
  let trimmedBack := jsTrim input.back
  if trimmedFront = "" ∨ trimmedBack = "" then
    (st, .error "Card front and back are required")
  else
    mutateStore st (fun draft =>
      match draft.decks.find? (fun d => d.id = deckId) with
      | none => .error ("Deck " ++ deckId ++ " not found")
      | some deck =>
        let card : Card := { id := freshId, front := trimmedFront, back := trimmedBack }
        let cards := (objLookup draft.cardsByDeck deck.id).getD []
        .ok ({ draft with
                decks := updateFirst (fun d => d.id = deckId)
                  (fun d => { d with updatedAt := dateToISO nowMs }) draft.decks
                cardsByDeck := objInsert draft.cardsByDeck deck.id (cards ++ [card]) },
             card))

structure UpdateCardInput where
  front : Option String
  back : Option String
deriving DecidableEq, Repr

/-- `updateCard` (`store.ts` lines 459-499). -/
def updateCard (nowMs : Int) (st : StoreState) (deckId : String) (cardId : String)
    (changes : UpdateCardInput) : StoreState × Except String Card :=
  mutateStore st (fun draft =>
    match draft.decks.find? (fun d => d.id = deckId) with
    | none => .error ("Deck " ++ deckId ++ " not found")
    | some deck =>
      let cards := (objLookup draft.cardsByDeck deck.id).getD []
      match cards.find? (fun c => c.id = cardId) with
      | none => .error ("Card " ++ cardId ++ " not found in deck " ++ deckId)
      | some card0 =>
        match (match changes.front with
               | none => .ok card0.front
               | some f =>
                 let trimmed := jsTrim f
                 if trimmed = "" then .error "Card front cannot be empty" else .ok trimmed :
               Except String String) with
        | .error e => .error e
        | .ok newFront =>
          match (match changes.back with
                 | none => .ok card0.back
                 | some b =>
                   let trimmed := jsTrim b
                   if trimmed = "" then .error "Card back cannot be empty" else .ok trimmed :
                 Except String String) with
          | .error e => .error e
          | .ok newBack =>
            let newCard := { card0 with front := newFront, back := newBack }
            .ok ({ draft with
                    decks := updateFirst (fun d => d.id = deckId)
                      (fun d => { d with updatedAt := dateToISO nowMs }) draft.decks
                    cardsByDeck := objInsert draft.cardsByDeck deck.id
                      (updateFirst (fun c => c.id = cardId) (fun _ => newCard) cards) },
                 newCard))

/-- `deleteCard` (`store.ts` lines 501-521). -/
def deleteCard (nowMs : Int) (st : StoreState) (deckId : String) (cardId : String) :
    StoreState × Except String Unit :=
  mutateStore st (fun draft =>
    match draft.decks.find? (fun d => d.id = deckId) with
    | none => .error ("Deck " ++ deckId ++ " not found")
    | some deck =>
      let cards := (objLookup draft.cardsByDeck deck.id).getD []
      if cards.any (fun c => c.id = cardId) then
        .ok ({ draft with
                decks := updateFirst (fun d => d.id = deckId)
                  (fun d => { d with updatedAt := dateToISO nowMs }) draft.decks
                cardsByDeck := objInsert draft.cardsByDeck deck.id
                  (removeFirst (fun c => c.id = cardId) cards) }, ())
      else .error ("Card " ++ cardId ++ " not found in deck " ++ deckId))

/-- `Partial<Settings>` as passed to `updateSettings`: `none` = key absent
(keep the draft value); `some none` = key present holding `undefined`;
`some (some v)` = key present holding `v`. -/
structure SettingsPatch where
  defaultStudyMode : Option (Option StudyMode)
  rememberLastDeck : Option (Option Bool)
  reducedMotion : Option (Option Bool)
  lastDeckId : Option (Option String)
deriving DecidableEq, Repr

/-- `{ ...draft.settings, ...changes }` as a `PartialSettings`. -/
def mergeSettings (s : Settings) (patch : SettingsPatch) : PartialSettings :=
  { defaultStudyMode := match patch.defaultStudyMode with
      | none => some s.defaultStudyMode
      | some v => v
    rememberLastDeck := match patch.rememberLastDeck with
      | none => some s.rememberLastDeck
      | some v => v
    reducedMotion := match patch.reducedMotion with
      | none => some s.reducedMotion
      | some v => v
    lastDeckId := match patch.lastDeckId with
      | none => s.lastDeckId
      | some v => v }

/-- `updateSettings` (`store.ts` lines 523-534). -/
def updateSettings (st : StoreState) (patch : SettingsPatch) :
    StoreState × Except String Settings :=
  mutateStore st (fun draft =>
    let next := normalizeSettingsP (mergeSettings draft.settings patch)
    let next2 := if next.rememberLastDeck then next else { next with lastDeckId := none }
    .ok ({ draft with settings := next2 }, next2))

/-- `setLastDeckId` (`store.ts` lines 536-546). -/
def setLastDeckId (st : StoreState) (deckId : Option String) :
    StoreState × Except String Unit :=
  mutateStore st (fun draft =>
    if draft.settings.rememberLastDeck then
      .ok ({ draft with settings := { draft.settings with lastDeckId := deckId } }, ())
    else
      .ok ({ draft with settings := { draft.settings with lastDeckId := none } }, ()))

/-- `true` exactly when the operation's result models a thrown exception. -/
def isError : Except String α → Bool
  | .error _ => true
  | .ok _ => false

instance instDecEqExcept [DecidableEq ε] [DecidableEq α] : DecidableEq (Except ε α) :=
  fun a b =>
    match a, b with
    | .error e, .error f =>
      if h : e = f then isTrue (by rw [h]) else isFalse (fun hc => h (by injection hc))
    | .error _, .ok _ => isFalse (fun hc => Except.noConfusion hc)
    | .ok _, .error _ => isFalse (fun hc => Except.noConfusion hc)
    | .ok x, .ok y =>
      if h : x = y then isTrue (by rw [h]) else isFalse (fun hc => h (by injection hc))

/-- Spec §3 invariant 5: `settings.lastDeckId` is absent whenever
`settings.rememberLastDeck` is false. -/
def settingsInv (st : StoreState) : Prop :=
  st.settings.rememberLastDeck = false → st.settings.lastDeckId = none

/-! ## JSON values and the zod schemas (`store.ts` lines 40-86)

Raw persisted data is a JSON value.  The zod schemas become parsers
`Json → Except (List String) _`; the error list carries the issue messages
(schema-shape messages are abbreviated, except the `superRefine` message,
which the source spells out explicitly).  Where zod would collect several
shape issues, the model keeps the first (the set of accepted inputs is
unchanged); `superRefine` issues are collected in full, as in the source. -/

inductive Json
  | null
  | bool (b : Bool)
  | num (n : Int)
  | str (s : String)
  | arr (items : List Json)
  | obj (fields : List (String × Json))

def jGet (fields : List (String × Json)) (key : String) : Option Json :=
  objLookup fields key

/-- `z.string().min(1)`. -/
def parseStringMin1 (ctx : String) : Option Json → Except (List String) String
  | some (.str s) =>
    if s.length ≥ 1 then .ok s
    else .error [ctx ++ ": String must contain at least 1 character"]
  | _ => .error [ctx ++ ": Required string"]

/-- `isoDateString` (`store.ts` lines 40-45): nonempty string whose
`Date.parse` is not `NaN`. -/
def parseIsoDateString (ctx : String) : Option Json → Except (List String) String
  | some (.str s) =>
    if s.length < 1 then .error [ctx ++ ": String must contain at least 1 character"]
    else if (dateParse s).isSome then .ok s
    else .error [ctx ++ ": Expected ISO 8601 date string"]
  | _ => .error [ctx ++ ": Required string"]

/-- `deckSchema` (`store.ts` lines 47-56). -/
def deckSchemaParse : Json → Except (List String) Deck
  | .obj fields => do
    let id ← parseStringMin1 "id" (jGet fields "id")
    let title ← parseStringMin1 "title" (jGet fields "title")
    let description ← (match jGet fields "description" with
      | none => .ok none
      | some (.str s) => .ok (if jsTrim s = "" then none else some (jsTrim s))
      | some _ => .error ["description: Expected string"])
    let createdAt ← parseIsoDateString "createdAt" (jGet fields "createdAt")
    let updatedAt ← parseIsoDateString "updatedAt" (jGet fields "updatedAt")
    .ok { id := id, title := title, description := description
          createdAt := createdAt, updatedAt := updatedAt }
  | _ => .error ["deck: Expected object"]

/-- `cardSchema` (`store.ts` lines 58-62). -/
def cardSchemaParse : Json → Except (List String) Card
  | .obj fields => do
    let id ← parseStringMin1 "id" (jGet fields "id")
    let front ← parseStringMin1 "front" (jGet fields "front")
    let back ← parseStringMin1 "back" (jGet fields "back")
    .ok { id := id, front := front, back := back }
  | _ => .error ["card: Expected object"]

/-- `z.enum(["ordered", "shuffle"]).catch("ordered")`. -/
def studyModeCatch : Option Json → StudyMode
  | some (.str "ordered") => .ordered
  | some (.str "shuffle") => .shuffle
  | _ => .ordered

/-- `z.boolean().catch(dflt)`. -/
def boolCatch (dflt : Bool) : Option Json → Bool
  | some (.bool b) => b
  | _ => dflt

/-- `settingsSchema` (`store.ts` lines 64-69): the three `.catch` fields fail
open per-field; `lastDeckId` (`z.string().optional().nullable().transform`)
accepts only a string, `null`, or absence. -/
def settingsSchemaParse : Json → Except (List String) Settings
  | .obj fields =>
    let defaultStudyMode := studyModeCatch (jGet fields "defaultStudyMode")
    let rememberLastDeck := boolCatch false (jGet fields "rememberLastDeck")
    let reducedMotion := boolCatch false (jGet fields "reducedMotion")
    match jGet fields "lastDeckId" with
    | none => .ok { defaultStudyMode, rememberLastDeck, reducedMotion, lastDeckId := none }
    | some .null => .ok { defaultStudyMode, rememberLastDeck, reducedMotion, lastDeckId := none }
    | some (.str s) =>
      .ok { defaultStudyMode, rememberLastDeck, reducedMotion, lastDeckId := some s }
    | some _ => .error ["lastDeckId: Expected string"]
  | _ => .error ["settings: Expected object"]

/-- The store record as validated by `storeSchema` (settings optional). -/
structure ValidStore where
  decks : List Deck
  cardsByDeck : List (String × List Card)
  settings : Option Settings
deriving DecidableEq, Repr

def decksArrayParse : Json → Except (List String) (List Deck)
  | .arr items => mapExcept deckSchemaParse items
  | _ => .error ["decks: Expected array"]

def cardsArrayParse : Json → Except (List String) (List Card)
  | .arr items => mapExcept cardSchemaParse items
  | _ => .error ["cards: Expected array"]

/-- `z.record(z.string(), z.array(cardSchema))` over the object's entries. -/
def cardsEntriesParse : List (String × Json) → Except (List String) (List (String × List Card))
  | [] => .ok []
  | (k, v) :: rest =>
    match cardsArrayParse v with
    | .error e => .error e
    | .ok cards =>
      match cardsEntriesParse rest with
      | .error e => .error e
      | .ok more => .ok ((k, cards) :: more)

def cardsByDeckParse : Json → Except (List String) (List (String × List Card))
  | .obj fields => cardsEntriesParse fields
  | _ => .error ["cardsByDeck: Expected record"]

/-- The base object shape of `storeSchema` (`store.ts` lines 71-76), before
the `superRefine` referential-integrity check. -/
def storeBaseParse : Json → Except (List String) ValidStore
  | .obj fields => do
    let decks ← (match jGet fields "decks" with
      | some j => decksArrayParse j
      | none => .error ["decks: Required"])
    let cardsByDeck ← (match jGet fields "cardsByDeck" with
      | some j => cardsByDeckParse j
      | none => .error ["cardsByDeck: Required"])
    let settings ← (match jGet fields "settings" with
      | none => .ok none
      | some j => (settingsSchemaParse j).map some)
    .ok { decks := decks, cardsByDeck := cardsByDeck, settings := settings }
  | _ => .error ["store: Expected object"]

/-- The issues added by `superRefine` (`store.ts` lines 77-86): one per deck
whose id has no `cardsByDeck` entry (`!data.cardsByDeck[deck.id]`; an empty
array is truthy, so only a missing entry counts). -/
def missingCardsIssues (v : ValidStore) : List String :=
  (v.decks.filter (fun d => (objLookup v.cardsByDeck d.id).isNone)).map
    (fun d => "Missing cards array for deck " ++ d.id)

/-- `storeSchema.parse` (`store.ts` lines 71-86). -/
def storeSchemaParse (j : Json) : Except (List String) ValidStore :=
  match storeBaseParse j with
  | .error e => .error e
  | .ok v =>
    match missingCardsIssues v with
    | [] => .ok v
    | issues => .error issues

/-! ## Sample-data seeder and hydration (`store.ts` lines 118-212, 264-289) -/

/-- The sources of nondeterminism in `createSampleStore` and hydration:
`new Date()` (one shared instant) and the stream of `generateId()` results. -/
structure Env where
  nowMs : Int
  ids : Nat → String

/-- `createSampleStore` (`store.ts` lines 118-212): two decks sharing one
creation timestamp, three cards in the first and ten in the second, all with
freshly generated ids. -/
def createSampleStore (env : Env) : StoreState :=
  let now := dateToISO env.nowMs
  let deckId1 := env.ids 0
  let deckId2 := env.ids 1
  { decks := [
      { id := deckId1, title := "Mindful Moments"
        description := some "Quick grounding prompts for serene study sessions."
        createdAt := now, updatedAt := now },
      { id := deckId2, title := "Bible Verses"
        description := some "Scripture references and verses for meditation and study."
        createdAt := now, updatedAt := now }]
    cardsByDeck :=
      objInsert (objInsert [] deckId1 [
        { id := env.ids 2, front := "Breathing cadence"
          back := "Inhale 4, hold 4, exhale 6 to reset focus." },
        { id := env.ids 3, front := "Posture cue"
          back := "Relax your shoulders and lengthen your spine." },
        { id := env.ids 4, front := "Micro-break idea"
          back := "Stand, stretch, and sip water between review blocks." }])
      deckId2 [
        { id := env.ids 5, front := "Philippians 4:13"
          back := "I can do all things through Christ who strengthens me." },
        { id := env.ids 6, front := "Jeremiah 29:11"
          back := "For I know the plans I have for you, declares the Lord, plans for welfare and not for evil, to give you a future and a hope." },
        { id := env.ids 7, front := "Romans 8:28"
          back := "And we know that for those who love God all things work together for good, for those who are called according to his purpose." },
        { id := env.ids 8, front := "Psalm 23:1"
          back := "The Lord is my shepherd; I shall not want." },
        { id := env.ids 9, front := "Isaiah 41:10"
          back := "Fear not, for I am with you; be not dismayed, for I am your God; I will strengthen you, I will help you, I will uphold you with my righteous right hand." },
        { id := env.ids 10, front := "Proverbs 3:5-6"
          back := "Trust in the Lord with all your heart, and do not lean on your own understanding. In all your ways acknowledge him, and he will make straight your paths." },
        { id := env.ids 11, front := "Matthew 11:28"
          back := "Come to me, all who labor and are heavy laden, and I will give you rest." },
        { id := env.ids 12, front := "Joshua 1:9"
          back := "Be strong and courageous. Do not be frightened, and do not be dismayed, for the Lord your God is with you wherever you go." },
        { id := env.ids 13, front := "Psalm 46:10"
          back := "Be still, and know that I am God. I will be exalted among the nations, I will be exalted in the earth!" },
        { id := env.ids 14, front := "1 Corinthians 13:4-5"
          back := "Love is patient and kind; love does not envy or boast; it is not arrogant or rude. It does not insist on its own way; it is not irritable or resentful." }]
    settings := defaultSettings }

/-- The seeded fallback shared by every recovery path of
`hydrateFromStorage`: normalize the sample store and persist it. -/
def hydrateSeed (env : Env) : Except String (StoreState × Option StoreState) :=
  match normalizeStore (createSampleStore env) with
  | .error e => .error e
  | .ok s => .ok (s, some s)

/-- `hydrateFromStorage` (`store.ts` lines 264-289) with durable storage
available.  `slot` is the parsed JSON of the stored record (`none` = no
record or unparseable text).  The returned pair is the hydrated state and
what `persist` wrote back (`persist` re-validates the already-normalized
store and serializes it; it is modelled as the written snapshot). -/
def hydrateFromStorage (env : Env) (slot : Option Json) :
    Except String (StoreState × Option StoreState) :=
  match slot with
  | none => hydrateSeed env
  | some j =>
    match storeSchemaParse j with
    | .error _ => hydrateSeed env
    | .ok parsed =>
      if parsed.decks.isEmpty then hydrateSeed env
      else
        match normalizeStore { decks := parsed.decks, cardsByDeck := parsed.cardsByDeck
                               settings := parsed.settings.getD defaultSettings } with
        | .error _ => hydrateSeed env
        | .ok n => .ok (n, some n)

/-! ## Import/export text transforms (`src/pages/ImportExport.tsx`) -/

/-- `sanitizedCards` (`ImportExport.tsx` lines 69-76): trim both sides, keep
only cards whose front and back are nonempty after trimming. -/
def sanitizedCards (raw : List CardInput) : List CardInput :=
  (raw.map (fun c => { front := jsTrim c.front, back := jsTrim c.back })).filter
    (fun c => c.front.length > 0 && c.back.length > 0)

/-- The character scanner of `parseCsv` (`ImportExport.tsx` lines 112-148):
quote toggling, doubled quotes inside a quoted field, `,` and line breaks as
separators only outside quotes, `\r\n` as one break, plus the final-cell
flush. -/
def csvScan : List Char → Bool → String → List String → List (List String) →
    List (List String)
  | [], _, current, row, rows =>
    if current.length > 0 || row.length > 0 then rows ++ [row ++ [current]] else rows
  | '"' :: '"' :: rest, true, current, row, rows =>
    csvScan rest true (current.push '"') row rows
  | '"' :: rest, true, current, row, rows => csvScan rest false current row rows
  | '"' :: rest, false, current, row, rows => csvScan rest true current row rows
  | ',' :: rest, false, current, row, rows => csvScan rest false "" (row ++ [current]) rows
  | '\r' :: '\n' :: rest, false, current, row, rows =>
    csvScan rest false "" [] (rows ++ [row ++ [current]])
  | '\n' :: rest, false, current, row, rows =>
    csvScan rest false "" [] (rows ++ [row ++ [current]])
  | '\r' :: rest, false, current, row, rows =>
    csvScan rest false "" [] (rows ++ [row ++ [current]])
  | c :: rest, inQuotes, current, row, rows =>
    csvScan rest inQuotes (current.push c) row rows

/-- Model of `String.prototype.toLowerCase` (ASCII range, which is all the
source's header matching relies on). -/
def lowerChar (c : Char) : Char :=
  if 'A' ≤ c ∧ c ≤ 'Z' then Char.ofNat (c.toNat + 32) else c

def jsToLower (s : String) : String := String.mk (s.data.map lowerChar)

/-- `parseCsv` (`ImportExport.tsx` lines 106-168): scan into rows, drop rows
that are blank after trimming, read the header for the (case-insensitive)
`front` and `back` columns, and turn each remaining row into a candidate
card.  The thrown missing-column error becomes `.error` (message text
abbreviated: the source quotes the column names). -/
def parseCsv (text : String) : Except String (List CardInput) :=
  let rows := csvScan text.data false "" [] []
  let nonEmptyRows := rows.filter (fun cells => cells.any (fun cell => (jsTrim cell).length > 0))
  match nonEmptyRows with
  | [] => .ok []
  | headerRow :: dataRows =>
    let headers := headerRow.map (fun v => jsToLower (jsTrim v))
    match headers.findIdx? (fun h => h = "front"), headers.findIdx? (fun h => h = "back") with
    | some frontIndex, some backIndex =>
      .ok (dataRows.map (fun cells =>
        { front := cells.getD frontIndex "", back := cells.getD backIndex "" }))
    | _, _ => .error "CSV must include front and back columns"

/-- `parseCsvFile`'s card extraction (`ImportExport.tsx` lines 236-238):
`sanitizedCards(parseCsv(text))`. -/
def parseCsvFileCards (text : String) : Except String (List CardInput) :=
  match parseCsv text with
  | .error e => .error e
  | .ok rows => .ok (sanitizedCards rows)

/-- The transformed `deck` part of `importJsonSchema`. -/
structure ImportDeckMeta where
  id : Option String
  title : String
  description : Option String
deriving DecidableEq, Repr

/-- One element of `importJsonSchema`'s `cards` array (pre-sanitizing). -/
structure RawImportCard where
  id : Option String
  front : String
  back : String
deriving DecidableEq, Repr

structure ImportParsed where
  deck : ImportDeckMeta
  cards : List RawImportCard
deriving DecidableEq, Repr

def importCardParse : Json → Except (List String) RawImportCard
  | .obj fields => do
    let id ← (match jGet fields "id" with
      | none => .ok none
      | some (.str s) => .ok (some s)
      | some _ => .error ["cards.id: Expected string"])
    let front ← (match jGet fields "front" with
      | some (.str s) => .ok s
      | _ => .error ["cards.front: Required string"])
    let back ← (match jGet fields "back" with
      | some (.str s) => .ok s
      | _ => .error ["cards.back: Required string"])
    .ok { id := id, front := front, back := back }
  | _ => .error ["cards: Expected object"]

/-- `importJsonSchema` (`ImportExport.tsx` lines 5-26): deck with required
nonempty title (then trimmed by the transform, whitespace-only description
dropped), and at least one card. -/
def importJsonParse : Json → Except (List String) ImportParsed
  | .obj fields => do
    let deck ← (match jGet fields "deck" with
      | some (.obj dfields) => do
        let id ← (match jGet dfields "id" with
          | none => .ok none
          | some (.str s) => .ok (some s)
          | some _ => .error ["deck.id: Expected string"])
        let title ← (match jGet dfields "title" with
          | some (.str s) =>
            if s.length ≥ 1 then .ok s else .error ["Deck title is required"]
          | _ => .error ["deck.title: Required string"])
        let description ← (match jGet dfields "description" with
          | none => .ok none
          | some (.str s) => .ok (some s)
          | some _ => .error ["deck.description: Expected string"])
        .ok { id := id, title := jsTrim title
              description := match description with
                | none => none
                | some s => if jsTrim s = "" then none else some (jsTrim s) }
      | some _ => .error ["deck: Expected object"]
      | none => .error ["deck: Required"])
    let cards ← (match jGet fields "cards" with
      | some (.arr items) =>
        (match mapExcept importCardParse items with
          | .error e => .error e
          | .ok cs =>
            if cs.length ≥ 1 then .ok cs else .error ["At least one card is required"])
      | some _ => .error ["cards: Expected array"]
      | none => .error ["cards: Required"])
    .ok { deck := deck, cards := cards }
  | _ => .error ["import: Expected object"]

def DEFAULT_DECK_TITLE : String := "Imported deck"

structure ImportPreview where
  deckTitle : String
  deckDescription : Option String
  cards : List CardInput
deriving DecidableEq, Repr

/-- `parseJson` (`ImportExport.tsx` lines 217-234) up to the preview it
builds: schema-parse, sanitize the cards, reject when none survive, fall back
to the default title when the trimmed title is empty (`|| DEFAULT`). -/
def parseJsonPreview (j : Json) : Except (List String) ImportPreview :=
  match importJsonParse j with
  | .error e => .error e
  | .ok parsed =>
    let cards := sanitizedCards (parsed.cards.map (fun rc =>
      { front := rc.front, back := rc.back }))
    if cards.isEmpty then .error ["No cards with valid front and back content were found"]
    else .ok { deckTitle := if parsed.deck.title = "" then DEFAULT_DECK_TITLE
                            else parsed.deck.title
               deckDescription := parsed.deck.description
               cards := cards }

/-! ## Concrete inputs used by witnesses and counterexamples -/

/-- A raw draft store with untrimmed strings and non-canonical (but parseable)
timestamps. -/
def wStore1 : StoreState :=
  { decks := [{ id := "d1", title := "  Hi ", description := some "  ",
                createdAt := "007", updatedAt := "5" }]
    cardsByDeck := [("zombie", [{ id := "c9", front := "x", back := "y" }]),
                    ("d1", [{ id := "c1", front := " a", back := "b " }])]
    settings := { defaultStudyMode := .shuffle, rememberLastDeck := false,
                  reducedMotion := true, lastDeckId := some "d1" } }

/-- The normal form of `wStore1`. -/
def wStore1n : StoreState :=
  { decks := [{ id := "d1", title := "Hi", description := none,
                createdAt := "7", updatedAt := "5" }]
    cardsByDeck := [("d1", [{ id := "c1", front := "a", back := "b" }])]
    settings := { defaultStudyMode := .shuffle, rememberLastDeck := false,
                  reducedMotion := true, lastDeckId := none } }

/-- A normalized store that remembers its last deck. -/
def wStore2 : StoreState :=
  { decks := [{ id := "d1", title := "Hi", description := none,
                createdAt := "7", updatedAt := "5" }]
    cardsByDeck := [("d1", [])]
    settings := { defaultStudyMode := .ordered, rememberLastDeck := true,
                  reducedMotion := false, lastDeckId := some "d1" } }

/-- The patch `{ rememberLastDeck: false }`. -/
def wPatchRememberOff : SettingsPatch :=
  { defaultStudyMode := none, rememberLastDeck := some (some false),
    reducedMotion := none, lastDeckId := none }

/-- Deterministic id/clock supply for exercising the seeder. -/
def wEnv : Env := { nowMs := 0, ids := fun n => Nat.repr n }

/-- A persisted record that validates but has a deck with no `cardsByDeck`
entry. -/
def wJsonMissingEntry : Json :=
  Json.obj [("decks", Json.arr [Json.obj [("id", Json.str "d1"),
    ("title", Json.str "T"), ("createdAt", Json.str "7"),
    ("updatedAt", Json.str "7")]]),
   ("cardsByDeck", Json.obj [])]

/-- A persisted record that validates and contains zero decks. -/
def wJsonEmptyStore : Json :=
  Json.obj [("decks", Json.arr []), ("cardsByDeck", Json.obj [])]

/-- The CSV text of spec §8:
`front,back\n"Greeting, friendly","Hello, ""friend""!"\nAffirmation,You are capable`. -/
def wCsvText : String :=
  "front,back\n\"Greeting, friendly\",\"Hello, \"\"friend\"\"!\"\nAffirmation,You are capable"

/-- A JSON import payload with one blank card and one valid untrimmed card. -/
def wImportJson : Json :=
  Json.obj [
    ("deck", Json.obj [("title", Json.str "T")]),
    ("cards", Json.arr [
      Json.obj [("front", Json.str " "), ("back", Json.str " ")],
      Json.obj [("front", Json.str "a "), ("back", Json.str " b")]])]

end Flipcard

namespace Flipcard

theorem digitVal_digitChar {d : Nat} (h : d < 10) : digitVal (digitChar d) = d := by
  interval_cases d <;> rfl

theorem isDigitCh_digitChar {d : Nat} (h : d < 10) : isDigitCh (digitChar d) = true := by
  interval_cases d <;> rfl

theorem valLE_natDigitsAux : ∀ fuel n, n ≤ fuel → valLE (natDigitsAux fuel n) = n := by
  intro fuel
  induction fuel with
  | zero => intro n hn; interval_cases n; rfl
  | succ f ih =>
    intro n hn
    match n with
    | 0 => rfl
    | m + 1 =>
      have hdiv : (m + 1) / 10 ≤ f := by
        have := Nat.div_lt_self (Nat.succ_pos m) (by omega : 1 < 10)
        omega
      simp only [natDigitsAux, valLE, ih _ hdiv, digitVal_digitChar (Nat.mod_lt _ (by omega))]
      omega

theorem all_isDigitCh_natDigitsAux : ∀ fuel n, (natDigitsAux fuel n).all isDigitCh = true := by
  intro fuel
  induction fuel with
  | zero => intro n; rfl
  | succ f ih =>
    intro n
    match n with
    | 0 => rfl
    | m + 1 =>
      simp only [natDigitsAux, List.all_cons, Bool.and_eq_true]
      exact ⟨isDigitCh_digitChar (Nat.mod_lt _ (by omega)), ih _⟩

theorem natDigitsAux_ne_nil {fuel n : Nat} (hf : n ≤ fuel) (hn : 0 < n) :
    natDigitsAux fuel n ≠ [] := by
  match fuel, n with
  | 0, n => omega
  | f + 1, 0 => omega
  | f + 1, m + 1 => simp [natDigitsAux]

theorem natToChars_ne_nil (n : Nat) : natToChars n ≠ [] := by
  unfold natToChars
  by_cases h : n = 0
  · simp [h]
  · simp only [h, if_false]
    intro hc
    exact natDigitsAux_ne_nil (Nat.le_refl n) (Nat.pos_of_ne_zero h) (List.reverse_eq_nil_iff.mp hc)

theorem natToChars_all_digits (n : Nat) : (natToChars n).all isDigitCh = true := by
  unfold natToChars
  by_cases h : n = 0
  · simp [h]; rfl
  · simp only [h, if_false, List.all_eq_true]
    intro c hc
    have := List.all_eq_true.mp (all_isDigitCh_natDigitsAux n n) c (List.mem_reverse.mp hc)
    exact this

theorem parseNatAcc_append (a b : List Char) (acc : Nat) :
    parseNatAcc acc (a ++ b) = parseNatAcc (parseNatAcc acc a) b := by
  induction a generalizing acc with
  | nil => rfl
  | cons c rest ih => simp only [List.cons_append, parseNatAcc, List.append_eq, ih]

theorem parseNatAcc_reverse (l : List Char) (acc : Nat) :
    parseNatAcc acc l.reverse = acc * 10 ^ l.length + valLE l := by
  induction l generalizing acc with
  | nil => simp [parseNatAcc, valLE]
  | cons c rest ih =>
    simp only [List.reverse_cons, parseNatAcc_append, ih, List.length_cons, valLE, parseNatAcc]
    ring

theorem parseNatChars_natToChars (n : Nat) : parseNatChars (natToChars n) = some n := by
  unfold parseNatChars
  have hne : (natToChars n).isEmpty = false := by
    cases hc : natToChars n with
    | nil => exact absurd hc (natToChars_ne_nil n)
    | cons c rest => rfl
  rw [hne, natToChars_all_digits n]
  simp only [if_false, if_true, Bool.false_eq_true]
  congr 1
  unfold natToChars
  by_cases h : n = 0
  · simp [h]; rfl
  · simp only [h, if_false]
    rw [parseNatAcc_reverse]
    simp [valLE_natDigitsAux n n (Nat.le_refl n)]

theorem isDigitCh_ne_dash {c : Char} (h : isDigitCh c = true) : c ≠ '-' := by
  intro he; subst he; exact absurd h (by decide)

theorem parseIntChars_intRepr (i : Int) : parseIntChars (intRepr i) = some i := by
  unfold intRepr
  by_cases hi : i < 0
  · simp only [hi, if_true]
    simp only [parseIntChars, if_pos rfl, parseNatChars_natToChars]
    show some (-((i.natAbs : Nat) : Int)) = some i
    congr 1
    omega
  · simp only [hi, if_false]
    cases hc : natToChars i.natAbs with
    | nil => exact absurd hc (natToChars_ne_nil _)
    | cons c rest =>
      have hall := natToChars_all_digits i.natAbs
      rw [hc] at hall
      have hcdig : isDigitCh c = true := by
        have := List.all_eq_true.mp hall c (by simp)
        exact this
      simp only [parseIntChars, if_neg (isDigitCh_ne_dash hcdig), ← hc,
        parseNatChars_natToChars]
      show some (((i.natAbs : Nat) : Int)) = some i
      congr 1
      omega

theorem dateParse_dateToISO (t : Int) : dateParse (dateToISO t) = some t :=
  parseIntChars_intRepr t

theorem dropWhile_dropWhile (p : Char → Bool) (l : List Char) :
    (l.dropWhile p).dropWhile p = l.dropWhile p := by
  induction l with
  | nil => rfl
  | cons c rest ih =>
    by_cases h : p c
    · simp [List.dropWhile_cons, h, ih]
    · simp [List.dropWhile_cons, h]

theorem rdropW_rdropW (p : Char → Bool) (l : List Char) :
    rdropW p (rdropW p l) = rdropW p l := by
  unfold rdropW
  rw [List.reverse_reverse, dropWhile_dropWhile]

theorem dropWhile_rdropW (p : Char → Bool) (l : List Char) :
    (rdropW p l).dropWhile p = rdropW p (l.dropWhile p) := by
  induction l with
  | nil => rfl
  | cons c rest ih =>
    have hsplit : rdropW p (c :: rest)
        = if (rest.reverse.dropWhile p).isEmpty
          then ([c].dropWhile p).reverse
          else c :: rdropW p rest := by
      unfold rdropW
      simp only [List.reverse_cons, List.dropWhile_append]
      by_cases he : (rest.reverse.dropWhile p).isEmpty
      · simp [he]
      · simp [he]
    by_cases hc : p c
    · have hrhs : (c :: rest).dropWhile p = rest.dropWhile p := by
        simp [List.dropWhile_cons, hc]
      rw [hrhs, ← ih, hsplit]
      by_cases he : (rest.reverse.dropWhile p).isEmpty
      · have h0 : rdropW p rest = [] := by
          unfold rdropW
          simp only [List.isEmpty_iff] at he
          simp [he]
        simp [he, List.dropWhile_cons, hc, h0]
      · simp [he, List.dropWhile_cons, hc]
    · have hrhs : (c :: rest).dropWhile p = c :: rest := by
        simp [List.dropWhile_cons, hc]
      rw [hrhs, hsplit]
      by_cases he : (rest.reverse.dropWhile p).isEmpty
      · simp [he, List.dropWhile_cons, hc]
      · simp [he, List.dropWhile_cons, hc]

theorem trimChars_eq_rdropW (l : List Char) :
    trimChars l = rdropW isJsSpace (l.dropWhile isJsSpace) := rfl

theorem trimChars_trimChars (l : List Char) : trimChars (trimChars l) = trimChars l := by
  rw [trimChars_eq_rdropW, trimChars_eq_rdropW, dropWhile_rdropW, dropWhile_dropWhile,
    rdropW_rdropW]

theorem jsTrim_jsTrim (s : String) : jsTrim (jsTrim s) = jsTrim s := by
  unfold jsTrim
  rw [show (String.mk (trimChars s.data)).data = trimChars s.data from rfl,
    trimChars_trimChars]

/-! ## Normalizer lemmas -/

theorem normDesc_normDesc (d : Option String) : normDesc (normDesc d) = normDesc d := by
  cases d with
  | none => rfl
  | some s =>
    simp only [normDesc]
    by_cases h : jsTrim s = ""
    · simp [h]
    · simp only [h, if_false]
      simp only [normDesc, jsTrim_jsTrim, h, if_false]

theorem normalizeCard_normalizeCard (c : Card) :
    normalizeCard (normalizeCard c) = normalizeCard c := by
  simp [normalizeCard, jsTrim_jsTrim]

theorem normalizeSettings_normalizeSettings (s : Settings) :
    normalizeSettings (normalizeSettings s) = normalizeSettings s := by
  cases hm : s.defaultStudyMode <;> cases hr : s.rememberLastDeck <;>
    simp [normalizeSettings, normalizeSettingsP, Settings.toPartial, hm, hr]

theorem normalizeDeck_idem {d d' : Deck} (h : normalizeDeck d = .ok d') :
    normalizeDeck d' = .ok d' := by
  unfold normalizeDeck at h
  cases hca : dateParse d.createdAt with
  | none => rw [hca] at h; exact absurd h (by simp)
  | some ca =>
    cases hua : dateParse d.updatedAt with
    | none => rw [hca, hua] at h; exact absurd h (by simp)
    | some ua =>
      rw [hca, hua] at h
      simp only [Except.ok.injEq] at h
      subst h
      unfold normalizeDeck
      simp only [dateParse_dateToISO]
      simp [jsTrim_jsTrim, normDesc_normDesc]

theorem mapExcept_stable {f : α → Except ε α}
    (hf : ∀ a b, f a = .ok b → f b = .ok b) :
    ∀ {l l' : List α}, mapExcept f l = .ok l' → mapExcept f l' = .ok l' := by
  intro l
  induction l with
  | nil =>
    intro l' h
    simp only [mapExcept, Except.ok.injEq] at h
    subst h
    rfl
  | cons x xs ih =>
    intro l' h
    simp only [mapExcept] at h
    cases hx : f x with
    | error e => rw [hx] at h; exact absurd h (by simp)
    | ok y =>
      rw [hx] at h
      cases hxs : mapExcept f xs with
      | error e => rw [hxs] at h; exact absurd h (by simp)
      | ok ys =>
        rw [hxs] at h
        simp only [Except.ok.injEq] at h
        subst h
        simp only [mapExcept, hf x y hx, ih hxs]

theorem mapExcept_ok_of_forall {f : α → Except ε α} :
    ∀ {l : List α}, (∀ x ∈ l, f x = .ok x) → mapExcept f l = .ok l := by
  intro l
  induction l with
  | nil => intro _; rfl
  | cons x xs ih =>
    intro h
    simp only [mapExcept, h x (by simp), ih (fun y hy => h y (by simp [hy]))]

theorem mapExcept_forall_of_ok_self {f : α → Except ε α} :
    ∀ {l : List α}, mapExcept f l = .ok l → ∀ x ∈ l, f x = .ok x := by
  intro l
  induction l with
  | nil => intro _ x hx; exact absurd hx (by simp)
  | cons x xs ih =>
    intro h y hy
    simp only [mapExcept] at h
    cases hx : f x with
    | error e => rw [hx] at h; exact absurd h (by simp)
    | ok z =>
      rw [hx] at h
      cases hxs : mapExcept f xs with
      | error e => rw [hxs] at h; exact absurd h (by simp)
      | ok zs =>
        rw [hxs] at h
        simp only [Except.ok.injEq, List.cons.injEq] at h
        obtain ⟨hz, hzs⟩ := h
        subst hz
        rcases List.mem_cons.mp hy with hyx | hyxs
        · subst hyx; exact hx
        · exact ih (hzs ▸ hxs) y hyxs

theorem mapExcept_append {f : α → Except ε β} {l₁ l₂ : List α} {y₁ y₂ : List β}
    (h₁ : mapExcept f l₁ = .ok y₁) (h₂ : mapExcept f l₂ = .ok y₂) :
    mapExcept f (l₁ ++ l₂) = .ok (y₁ ++ y₂) := by
  induction l₁ generalizing y₁ with
  | nil =>
    simp only [mapExcept, Except.ok.injEq] at h₁
    subst h₁
    simpa using h₂
  | cons x xs ih =>
    simp only [mapExcept] at h₁
    cases hx : f x with
    | error e => rw [hx] at h₁; exact absurd h₁ (by simp)
    | ok z =>
      rw [hx] at h₁
      cases hxs : mapExcept f xs with
      | error e => rw [hxs] at h₁; exact absurd h₁ (by simp)
      | ok zs =>
        rw [hxs] at h₁
        simp only [Except.ok.injEq] at h₁
        subst h₁
        simp only [List.cons_append, mapExcept, hx, List.append_eq, ih hxs]

theorem objLookup_objInsert (m : List (String × α)) (key : String) (v : α) (q : String) :
    objLookup (objInsert m key v) q = if key = q then some v else objLookup m q := by
  induction m with
  | nil => simp [objInsert, objLookup]
  | cons kv rest ih =>
    obtain ⟨k, w⟩ := kv
    by_cases hk : k = key
    · subst hk
      simp only [objInsert, if_pos rfl, objLookup]
      by_cases hq : k = q
      · simp [hq]
      · simp [hq, objLookup]
    · simp only [objInsert, hk, if_false, objLookup, ih]
      by_cases hq : k = q
      · subst hq
        have hkq : ¬ key = k := fun h => hk h.symm
        simp [hkq]
      · simp [hq]

theorem foldl_objInsert_lookup (g : String → List Card) (decks : List Deck)
    (acc : List (String × List Card)) (k : String) :
    objLookup (decks.foldl (fun a d => objInsert a d.id (g d.id)) acc) k
      = if decks.any (fun d => d.id = k) then some (g k) else objLookup acc k := by
  induction decks generalizing acc with
  | nil => simp
  | cons d rest ih =>
    simp only [List.foldl_cons, ih, List.any_cons, objLookup_objInsert]
    by_cases hrest : rest.any (fun d => d.id = k)
    · simp [hrest]
    · by_cases hd : d.id = k
      · simp [hrest, hd]
      · simp [hrest, hd, objLookup_objInsert]

theorem foldl_objInsert_congr (g g' : String → List Card) (decks : List Deck)
    (acc : List (String × List Card)) (h : ∀ d ∈ decks, g' d.id = g d.id) :
    decks.foldl (fun a d => objInsert a d.id (g' d.id)) acc
      = decks.foldl (fun a d => objInsert a d.id (g d.id)) acc := by
  induction decks generalizing acc with
  | nil => rfl
  | cons d rest ih =>
    simp only [List.foldl_cons, h d (by simp)]
    exact ih _ (fun d' hd' => h d' (by simp [hd']))

theorem rebuildCards_lookup (src : List (String × List Card)) (decks : List Deck) (k : String) :
    objLookup (rebuildCards src decks) k
      = if decks.any (fun d => d.id = k) then some (rebuildEntry src k) else none := by
  unfold rebuildCards
  rw [foldl_objInsert_lookup]
  rfl

theorem rebuildEntry_rebuildCards (src : List (String × List Card)) (decks : List Deck)
    {d : Deck} (hd : d ∈ decks) :
    rebuildEntry (rebuildCards src decks) d.id = rebuildEntry src d.id := by
  unfold rebuildEntry
  rw [rebuildCards_lookup]
  have hany : decks.any (fun d' => d'.id = d.id) = true := by
    simp only [List.any_eq_true]
    exact ⟨d, hd, by simp⟩
  rw [if_pos hany]
  show ((rebuildEntry src d.id).map normalizeCard) = _
  unfold rebuildEntry
  rw [List.map_map]
  exact List.map_congr_left (fun c _ => normalizeCard_normalizeCard c)

theorem normalizeStore_eq_ok_of {st : StoreState} {l : List Deck}
    (h : mapExcept normalizeDeck st.decks = .ok l) :
    normalizeStore st
      = .ok { decks := l
              cardsByDeck := rebuildCards st.cardsByDeck l
              settings := normalizeSettings st.settings } := by
  unfold normalizeStore
  rw [h]

theorem normalizeStore_eq_ok {st n : StoreState} (h : normalizeStore st = .ok n) :
    mapExcept normalizeDeck st.decks = .ok n.decks
    ∧ n.cardsByDeck = rebuildCards st.cardsByDeck n.decks
    ∧ n.settings = normalizeSettings st.settings := by
  unfold normalizeStore at h
  cases hm : mapExcept normalizeDeck st.decks with
  | error e => rw [hm] at h; exact absurd h (by simp)
  | ok l =>
    rw [hm] at h
    simp only [Except.ok.injEq] at h
    subst h
    exact ⟨rfl, rfl, rfl⟩

/-- Claim C1. -/
theorem c1_normalizeStore_idempotent {s t : StoreState}
    (h : normalizeStore s = .ok t) : normalizeStore t = .ok t := by
  obtain ⟨hm, hcards, hsettings⟩ := normalizeStore_eq_ok h
  have hm' : mapExcept normalizeDeck t.decks = .ok t.decks :=
    mapExcept_stable (fun a b hab => normalizeDeck_idem hab) hm
  rw [normalizeStore_eq_ok_of hm']
  congr 1
  obtain ⟨decks, cards, settings⟩ := t
  simp only at hcards hsettings
  simp only [StoreState.mk.injEq]
  refine ⟨trivial, ?_, ?_⟩
  · rw [hcards]
    show rebuildCards (rebuildCards s.cardsByDeck decks) decks = rebuildCards s.cardsByDeck decks
    unfold rebuildCards
    exact foldl_objInsert_congr _ _ _ _ (fun d hd => rebuildEntry_rebuildCards _ _ hd)
  · rw [hsettings]
    exact normalizeSettings_normalizeSettings _

/-- Witness for C1. -/
theorem c1_witness :
    normalizeStore wStore1 = .ok wStore1n ∧ normalizeStore wStore1n = .ok wStore1n := by
  have h : normalizeStore wStore1 = .ok wStore1n := by decide
  exact ⟨h, c1_normalizeStore_idempotent h⟩

/-! ## Store-engine lemmas -/

theorem mutateStore_error_fst (st : StoreState)
    (m : StoreState → Except String (StoreState × α))
    (h : isError (mutateStore st m).2 = true) : (mutateStore st m).1 = st := by
  cases hm : m st with
  | error e => simp [mutateStore, hm]
  | ok dr =>
    obtain ⟨draft, r⟩ := dr
    cases hn : normalizeStore draft with
    | error e => simp [mutateStore, hm, hn]
    | ok n =>
      simp only [mutateStore, hm, hn, isError] at h
      exact Bool.noConfusion h

theorem mutateStore_ok_eval {st draft : StoreState} {r : α}
    {m : StoreState → Except String (StoreState × α)} (hm : m st = .ok (draft, r))
    {n : StoreState} (hn : normalizeStore draft = .ok n) :
    mutateStore st m = (n, .ok r) := by
  simp only [mutateStore, hm, hn]

theorem normalizeSettings_lastDeckId_none {s : Settings} (h : s.rememberLastDeck = false) :
    (normalizeSettings s).lastDeckId = none := by
  simp [normalizeSettings, normalizeSettingsP, Settings.toPartial, h]

theorem settingsInv_of_normalizeStore {x n : StoreState} (h : normalizeStore x = .ok n) :
    settingsInv n := by
  intro hr
  obtain ⟨-, -, hs⟩ := normalizeStore_eq_ok h
  rw [hs] at hr ⊢
  exact normalizeSettings_lastDeckId_none (by
    revert hr
    cases hm : x.settings.rememberLastDeck <;>
      simp [normalizeSettings, normalizeSettingsP, Settings.toPartial, hm])

theorem settingsInv_mutateStore (st : StoreState)
    (m : StoreState → Except String (StoreState × α))
    (h : settingsInv st) : settingsInv (mutateStore st m).1 := by
  cases hm : m st with
  | error e => simpa [mutateStore, hm] using h
  | ok dr =>
    obtain ⟨draft, r⟩ := dr
    cases hn : normalizeStore draft with
    | error e => simpa [mutateStore, hm, hn] using h
    | ok n =>
      simp only [mutateStore, hm, hn]
      exact settingsInv_of_normalizeStore hn

/-- Claim C2: each of the six mutating operations leaves the store state
untouched whenever it fails, whatever the cause of the failure. -/
theorem c2_mutations_atomic_on_failure (st : StoreState) :
    (∀ freshId nowMs input, isError (createDeck freshId nowMs st input).2 = true →
      (createDeck freshId nowMs st input).1 = st)
    ∧ (∀ nowMs deckId changes, isError (updateDeck nowMs st deckId changes).2 = true →
      (updateDeck nowMs st deckId changes).1 = st)
    ∧ (∀ deckId, isError (deleteDeck st deckId).2 = true → (deleteDeck st deckId).1 = st)
    ∧ (∀ freshId nowMs deckId input, isError (addCard freshId nowMs st deckId input).2 = true →
      (addCard freshId nowMs st deckId input).1 = st)
    ∧ (∀ nowMs deckId cardId changes,
      isError (updateCard nowMs st deckId cardId changes).2 = true →
      (updateCard nowMs st deckId cardId changes).1 = st)
    ∧ (∀ nowMs deckId cardId, isError (deleteCard nowMs st deckId cardId).2 = true →
      (deleteCard nowMs st deckId cardId).1 = st) := by
  refine ⟨?_, ?_, ?_, ?_, ?_, ?_⟩
  · intro freshId nowMs input h
    unfold createDeck at h ⊢
    by_cases ht : jsTrim input.title = ""
    · simp [ht]
    · simp only [ht, if_false] at h ⊢
      exact mutateStore_error_fst _ _ h
  · intro nowMs deckId changes h
    exact mutateStore_error_fst _ _ h
  · intro deckId h
    exact mutateStore_error_fst _ _ h
  · intro freshId nowMs deckId input h
    unfold addCard at h ⊢
    by_cases ht : jsTrim input.front = "" ∨ jsTrim input.back = ""
    · simp [ht]
    · simp only [ht, if_false] at h ⊢
      exact mutateStore_error_fst _ _ h
  · intro nowMs deckId cardId changes h
    exact mutateStore_error_fst _ _ h
  · intro nowMs deckId cardId h
    exact mutateStore_error_fst _ _ h

/-- Witness for C2: each operation, driven into an error on a concrete store
(empty title, unknown deck, empty card front, unknown card), leaves it intact. -/
theorem c2_witness :
    (createDeck "w" 0 wStore1n { title := " ", description := none }).1 = wStore1n
    ∧ (updateDeck 0 wStore1n "nope" { title := none, description := none }).1 = wStore1n
    ∧ (deleteDeck wStore1n "nope").1 = wStore1n
    ∧ (addCard "w" 0 wStore1n "d1" { front := " ", back := "b" }).1 = wStore1n
    ∧ (updateCard 0 wStore1n "d1" "nope" { front := none, back := none }).1 = wStore1n
    ∧ (deleteCard 0 wStore1n "d1" "nope").1 = wStore1n :=
  ⟨(c2_mutations_atomic_on_failure wStore1n).1 "w" 0 _ (by decide),
   (c2_mutations_atomic_on_failure wStore1n).2.1 0 "nope" _ (by decide),
   (c2_mutations_atomic_on_failure wStore1n).2.2.1 "nope" (by decide),
   (c2_mutations_atomic_on_failure wStore1n).2.2.2.1 "w" 0 "d1" _ (by decide),
   (c2_mutations_atomic_on_failure wStore1n).2.2.2.2.1 0 "d1" "nope" _ (by decide),
   (c2_mutations_atomic_on_failure wStore1n).2.2.2.2.2 0 "d1" "nope" (by decide)⟩

/-- Claim C5: the invariant "`lastDeckId` absent whenever `rememberLastDeck`
is false" is preserved by every mutating operation (trivially so on failure,
re-established by normalization on success); `updateSettings` with
`rememberLastDeck: false` clears `lastDeckId`, and `setLastDeckId` leaves it
absent when `rememberLastDeck` is false. -/
theorem c5_lastDeckId_absent_invariant :
    (∀ st freshId nowMs input, settingsInv st →
      settingsInv (createDeck freshId nowMs st input).1)
    ∧ (∀ st nowMs deckId changes, settingsInv st →
      settingsInv (updateDeck nowMs st deckId changes).1)
    ∧ (∀ st deckId, settingsInv st → settingsInv (deleteDeck st deckId).1)
    ∧ (∀ st freshId nowMs deckId input, settingsInv st →
      settingsInv (addCard freshId nowMs st deckId input).1)
    ∧ (∀ st nowMs deckId cardId changes, settingsInv st →
      settingsInv (updateCard nowMs st deckId cardId changes).1)
    ∧ (∀ st nowMs deckId cardId, settingsInv st →
      settingsInv (deleteCard nowMs st deckId cardId).1)
    ∧ (∀ st patch, settingsInv st → settingsInv (updateSettings st patch).1)
    ∧ (∀ st d, settingsInv st → settingsInv (setLastDeckId st d).1)
    ∧ (∀ st patch, normalizeStore st = .ok st →
      patch.rememberLastDeck = some (some false) →
      (updateSettings st patch).1.settings.lastDeckId = none)
    ∧ (∀ st d, settingsInv st → st.settings.rememberLastDeck = false →
      (setLastDeckId st d).1.settings.lastDeckId = none) := by
  refine ⟨?_, ?_, ?_, ?_, ?_, ?_, ?_, ?_, ?_, ?_⟩
  · intro st freshId nowMs input h
    unfold createDeck
    by_cases ht : jsTrim input.title = ""
    · simpa [ht] using h
    · simp only [ht, if_false]
      exact settingsInv_mutateStore _ _ h
  · intro st nowMs deckId changes h
    exact settingsInv_mutateStore _ _ h
  · intro st deckId h
    exact settingsInv_mutateStore _ _ h
  · intro st freshId nowMs deckId input h
    unfold addCard
    by_cases ht : jsTrim input.front = "" ∨ jsTrim input.back = ""
    · simpa [ht] using h
    · simp only [ht, if_false]
      exact settingsInv_mutateStore _ _ h
  · intro st nowMs deckId cardId changes h
    exact settingsInv_mutateStore _ _ h
  · intro st nowMs deckId cardId h
    exact settingsInv_mutateStore _ _ h
  · intro st patch h
    exact settingsInv_mutateStore _ _ h
  · intro st d h
    exact settingsInv_mutateStore _ _ h
  · intro st patch hst hpatch
    have hm := (normalizeStore_eq_ok hst).1
    simp only [updateSettings, mutateStore]
    split
    · rename_i e he
      simp only [normalizeStore, hm] at he
      exact Except.noConfusion he
    · rename_i n hn
      show n.settings.lastDeckId = none
      rw [(normalizeStore_eq_ok hn).2.2]
      simp [normalizeSettings, normalizeSettingsP, mergeSettings, Settings.toPartial, hpatch]
  · intro st d hinv hroff
    simp only [setLastDeckId, mutateStore, hroff, Bool.false_eq_true, if_false]
    split
    · exact hinv hroff
    · rename_i n hn
      show n.settings.lastDeckId = none
      rw [(normalizeStore_eq_ok hn).2.2]
      exact normalizeSettings_lastDeckId_none rfl

/-! ## Evaluation lemmas for the success paths of `createDeck` / `deleteDeck` -/

theorem createDeck_eval {st : StoreState} {l : List Deck}
    (hm : mapExcept normalizeDeck st.decks = .ok l)
    (freshId : String) (nowMs : Int) (input : CreateDeckInput)
    (ht : ¬ jsTrim input.title = "") :
    createDeck freshId nowMs st input
      = ({ decks := l ++ [{ id := freshId, title := jsTrim input.title
                            description := normDesc input.description
                            createdAt := dateToISO nowMs, updatedAt := dateToISO nowMs }]
           cardsByDeck := rebuildCards (objInsert st.cardsByDeck freshId [])
             (l ++ [{ id := freshId, title := jsTrim input.title
                      description := normDesc input.description
                      createdAt := dateToISO nowMs, updatedAt := dateToISO nowMs }])
           settings := normalizeSettings st.settings },
         .ok { id := freshId, title := jsTrim input.title
               description := normDesc input.description
               createdAt := dateToISO nowMs, updatedAt := dateToISO nowMs }) := by
  have hnew : normalizeDeck
      { id := freshId, title := jsTrim input.title
        description := normDesc input.description
        createdAt := dateToISO nowMs, updatedAt := dateToISO nowMs }
      = .ok { id := freshId, title := jsTrim input.title
              description := normDesc input.description
              createdAt := dateToISO nowMs, updatedAt := dateToISO nowMs } := by
    simp [normalizeDeck, dateParse_dateToISO, jsTrim_jsTrim, normDesc_normDesc]
  have happ : mapExcept normalizeDeck
      (st.decks ++ [{ id := freshId, title := jsTrim input.title
                      description := normDesc input.description
                      createdAt := dateToISO nowMs, updatedAt := dateToISO nowMs }])
      = .ok (l ++ [{ id := freshId, title := jsTrim input.title
                     description := normDesc input.description
                     createdAt := dateToISO nowMs, updatedAt := dateToISO nowMs }]) :=
    mapExcept_append hm (by simp [mapExcept, hnew])
  have hnorm : normalizeStore
      { decks := st.decks ++ [{ id := freshId, title := jsTrim input.title
                                description := normDesc input.description
                                createdAt := dateToISO nowMs, updatedAt := dateToISO nowMs }]
        cardsByDeck := objInsert st.cardsByDeck freshId []
        settings := st.settings }
      = .ok { decks := l ++ [{ id := freshId, title := jsTrim input.title
                               description := normDesc input.description
                               createdAt := dateToISO nowMs, updatedAt := dateToISO nowMs }]
              cardsByDeck := rebuildCards (objInsert st.cardsByDeck freshId [])
                (l ++ [{ id := freshId, title := jsTrim input.title
                         description := normDesc input.description
                         createdAt := dateToISO nowMs, updatedAt := dateToISO nowMs }])
              settings := normalizeSettings st.settings } :=
    normalizeStore_eq_ok_of happ
  simp only [createDeck, if_neg ht, mutateStore]
  rw [hnorm]

theorem mem_removeFirst {p : α → Bool} :
    ∀ {l : List α} {x : α}, x ∈ removeFirst p l → x ∈ l := by
  intro l
  induction l with
  | nil => intro x hx; exact absurd hx (by simp [removeFirst])
  | cons y ys ih =>
    intro x hx
    simp only [removeFirst] at hx
    by_cases hp : p y
    · rw [if_pos hp] at hx
      exact List.mem_cons_of_mem _ hx
    · rw [if_neg hp] at hx
      rcases List.mem_cons.mp hx with h | h
      · exact h ▸ List.mem_cons_self _ _
      · exact List.mem_cons_of_mem _ (ih h)

theorem removeFirst_id_ne {k : String} :
    ∀ {l : List Deck}, (l.map Deck.id).Nodup →
      ∀ {d : Deck}, d ∈ removeFirst (fun x => x.id = k) l → d.id ≠ k := by
  intro l
  induction l with
  | nil => intro _ d hd; exact absurd hd (by simp [removeFirst])
  | cons x xs ih =>
    intro hnd d hd
    simp only [List.map_cons, List.nodup_cons] at hnd
    obtain ⟨hx, hxs⟩ := hnd
    by_cases hp : x.id = k
    · rw [show removeFirst (fun x => x.id = k) (x :: xs) = xs from by
        simp [removeFirst, hp]] at hd
      intro hdk
      have hmem : d.id ∈ xs.map Deck.id := List.mem_map_of_mem _ hd
      rw [hdk, ← hp] at hmem
      exact hx hmem
    · rw [show removeFirst (fun x => x.id = k) (x :: xs)
          = x :: removeFirst (fun x => x.id = k) xs from by
        simp [removeFirst, hp]] at hd
      rcases List.mem_cons.mp hd with h | h
      · rw [h]; exact hp
      · exact ih hxs h

theorem normalizeSettings_clear_lastDeckId (s : Settings) :
    (normalizeSettings { defaultStudyMode := s.defaultStudyMode
                         rememberLastDeck := s.rememberLastDeck
                         reducedMotion := s.reducedMotion
                         lastDeckId := none }).lastDeckId = none := by
  cases hr : s.rememberLastDeck <;>
    simp [normalizeSettings, normalizeSettingsP, Settings.toPartial, hr]

theorem deleteDeck_eval {st : StoreState} (hst : normalizeStore st = .ok st) {deckId : String}
    (hin : st.decks.any (fun d => d.id = deckId) = true) :
    deleteDeck st deckId
      = ({ decks := removeFirst (fun d => d.id = deckId) st.decks
           cardsByDeck := rebuildCards (objDelete st.cardsByDeck deckId)
             (removeFirst (fun d => d.id = deckId) st.decks)
           settings := normalizeSettings
             (if st.settings.lastDeckId = some deckId then
                { defaultStudyMode := st.settings.defaultStudyMode
                  rememberLastDeck := st.settings.rememberLastDeck
                  reducedMotion := st.settings.reducedMotion
                  lastDeckId := none }
              else st.settings) },
         .ok ()) := by
  have hm := (normalizeStore_eq_ok hst).1
  have hpt := mapExcept_forall_of_ok_self hm
  have hdecks : mapExcept normalizeDeck (removeFirst (fun d => d.id = deckId) st.decks)
      = .ok (removeFirst (fun d => d.id = deckId) st.decks) :=
    mapExcept_ok_of_forall (fun x hx => hpt x (mem_removeFirst hx))
  have hnorm : normalizeStore
      { decks := removeFirst (fun d => d.id = deckId) st.decks
        cardsByDeck := objDelete st.cardsByDeck deckId
        settings := if st.settings.lastDeckId = some deckId then
            { defaultStudyMode := st.settings.defaultStudyMode
              rememberLastDeck := st.settings.rememberLastDeck
              reducedMotion := st.settings.reducedMotion
              lastDeckId := none }
          else st.settings }
      = .ok { decks := removeFirst (fun d => d.id = deckId) st.decks
              cardsByDeck := rebuildCards (objDelete st.cardsByDeck deckId)
                (removeFirst (fun d => d.id = deckId) st.decks)
              settings := normalizeSettings
                (if st.settings.lastDeckId = some deckId then
                   { defaultStudyMode := st.settings.defaultStudyMode
                     rememberLastDeck := st.settings.rememberLastDeck
                     reducedMotion := st.settings.reducedMotion
                     lastDeckId := none }
                 else st.settings) } :=
    normalizeStore_eq_ok_of hdecks
  simp only [deleteDeck, mutateStore, hin, if_true]
  rw [hnorm]

/-- Claim C3 (amended): a successful `createDeck` adds exactly one more deck
bearing the trimmed title (so exactly one when no deck had that title before),
and the new deck's card collection is empty.  The original "exactly one deck
with that title" fails when a deck with the same title already exists
(see the counterexample). -/
theorem c3_createDeck_amended :
    ∀ freshId nowMs st input, normalizeStore st = .ok st → ¬ jsTrim input.title = "" →
    ∃ d, (createDeck freshId nowMs st input).2 = .ok d
      ∧ d.title = jsTrim input.title
      ∧ (listDecks (createDeck freshId nowMs st input).1).countP (fun x => x.title = d.title)
          = (listDecks st).countP (fun x => x.title = d.title) + 1
      ∧ listCards (createDeck freshId nowMs st input).1 d.id = [] := by
  intro freshId nowMs st input hst ht
  have hm := (normalizeStore_eq_ok hst).1
  have heval := createDeck_eval hm freshId nowMs input ht
  refine ⟨{ id := freshId, title := jsTrim input.title
            description := normDesc input.description
            createdAt := dateToISO nowMs, updatedAt := dateToISO nowMs },
          by rw [heval], rfl, ?_, ?_⟩
  · have hafter : (listDecks (createDeck freshId nowMs st input).1).countP
        (fun x => x.title = jsTrim input.title)
        = ((createDeck freshId nowMs st input).1.decks).countP
            (fun x => x.title = jsTrim input.title) :=
      (List.perm_insertionSort _ _).countP_eq _
    have hbefore : (listDecks st).countP (fun x => x.title = jsTrim input.title)
        = st.decks.countP (fun x => x.title = jsTrim input.title) :=
      (List.perm_insertionSort _ _).countP_eq _
    rw [hafter, hbefore, heval]
    simp only [List.countP_append]
    have hone : List.countP (fun x : Deck => x.title = jsTrim input.title)
        [{ id := freshId, title := jsTrim input.title
           description := normDesc input.description
           createdAt := dateToISO nowMs, updatedAt := dateToISO nowMs }] = 1 := by
      simp [List.countP_cons]
    rw [hone]
  · simp only [heval, listCards]
    rw [rebuildCards_lookup]
    have hany : (st.decks ++ [({ id := freshId, title := jsTrim input.title
                                 description := normDesc input.description
                                 createdAt := dateToISO nowMs
                                 updatedAt := dateToISO nowMs } : Deck)]).any
        (fun d => d.id = freshId) = true := by
      simp [List.any_append]
    rw [hany, if_pos rfl]
    simp [rebuildEntry, objLookup_objInsert]

/-- Counterexample for C3 as stated: starting from a store that already has a
deck titled `"Hi"`, a successful `createDeck` with title `"Hi"` leaves
`listDecks()` with two decks of that title, not exactly one. -/
theorem c3_counterexample :
    (createDeck "d2" 9 wStore2 { title := "Hi", description := none }).2
        = .ok { id := "d2", title := "Hi", description := none
                createdAt := "9", updatedAt := "9" }
    ∧ (listDecks (createDeck "d2" 9 wStore2 { title := "Hi", description := none }).1).countP
        (fun d => d.title = "Hi") = 2 := by
  constructor
  · decide
  · decide

/-- Witness for C3. -/
theorem c3_witness :
    (createDeck "n1" 3 wStore2 { title := " New", description := none }).2
        = .ok { id := "n1", title := "New", description := none
                createdAt := "3", updatedAt := "3" }
    ∧ (listDecks (createDeck "n1" 3 wStore2 { title := " New", description := none }).1).countP
        (fun x => x.title = "New")
      = (listDecks wStore2).countP (fun x => x.title = "New") + 1
    ∧ listCards (createDeck "n1" 3 wStore2 { title := " New", description := none }).1 "n1"
        = [] := by
  obtain ⟨d, h1, h2, h3, h4⟩ := c3_createDeck_amended "n1" 3 wStore2
    { title := " New", description := none } (by decide) (by decide)
  have h5 : (createDeck "n1" 3 wStore2 { title := " New", description := none }).2
      = .ok { id := "n1", title := "New", description := none
              createdAt := "3", updatedAt := "3" } := by decide
  have hd : d = { id := "n1", title := "New", description := none
                  createdAt := "3", updatedAt := "3" } := by
    rw [h5] at h1
    exact ((Except.ok.injEq _ _).mp h1).symm
  subst hd
  exact ⟨h5, h3, h4⟩

/-- Claim C4: deleting a present deck succeeds, removes the deck, drops the
whole `cardsByDeck` entry (so `listCards` of it is empty), clears
`lastDeckId` when it pointed at the deck; deleting an absent id fails and
leaves the store unchanged. -/
theorem c4_deleteDeck_cascades :
    ∀ st deckId, normalizeStore st = .ok st → (st.decks.map Deck.id).Nodup →
    ((st.decks.any (fun d => d.id = deckId) = true →
       (deleteDeck st deckId).2 = .ok ()
       ∧ (∀ d ∈ (deleteDeck st deckId).1.decks, d.id ≠ deckId)
       ∧ objLookup (deleteDeck st deckId).1.cardsByDeck deckId = none
       ∧ listCards (deleteDeck st deckId).1 deckId = []
       ∧ (st.settings.lastDeckId = some deckId →
           (deleteDeck st deckId).1.settings.lastDeckId = none))
     ∧ (st.decks.any (fun d => d.id = deckId) = false →
        deleteDeck st deckId = (st, .error ("Deck " ++ deckId ++ " not found")))) := by
  intro st deckId hst hnd
  constructor
  · intro hin
    have heval := deleteDeck_eval hst hin
    have hne : ∀ d ∈ removeFirst (fun x => x.id = deckId) st.decks, d.id ≠ deckId :=
      fun d hd => removeFirst_id_ne hnd hd
    have hanyf : (removeFirst (fun x => x.id = deckId) st.decks).any
        (fun d => d.id = deckId) = false :=
      List.any_eq_false.mpr (fun d hd => by simpa using hne d hd)
    refine ⟨by rw [heval], ?_, ?_, ?_, ?_⟩
    · simp only [heval]
      exact hne
    · simp only [heval]
      rw [rebuildCards_lookup, hanyf]
      simp
    · simp only [heval, listCards]
      rw [rebuildCards_lookup, hanyf]
      simp
    · intro hlast
      simp [heval, hlast, normalizeSettings_clear_lastDeckId]
  · intro hout
    simp [deleteDeck, mutateStore, hout]

/-- Witness for C4. -/
theorem c4_witness :
    (deleteDeck wStore2 "d1").2 = .ok ()
    ∧ objLookup (deleteDeck wStore2 "d1").1.cardsByDeck "d1" = none
    ∧ listCards (deleteDeck wStore2 "d1").1 "d1" = []
    ∧ (deleteDeck wStore2 "d1").1.settings.lastDeckId = none
    ∧ deleteDeck wStore2 "zz" = (wStore2, .error ("Deck " ++ "zz" ++ " not found")) := by
  obtain ⟨hp, -⟩ := c4_deleteDeck_cascades wStore2 "d1" (by decide) (by decide)
  obtain ⟨hok, hdecks, hlook, hcards, hlast⟩ := hp (by decide)
  obtain ⟨-, hq⟩ := c4_deleteDeck_cascades wStore2 "zz" (by decide) (by decide)
  exact ⟨hok, hlook, hcards, hlast (by decide), hq (by decide)⟩

/-- Witness for C5. -/
theorem c5_witness :
    (updateSettings wStore2 wPatchRememberOff).1.settings.lastDeckId = none
    ∧ (setLastDeckId wStore1n (some "zz")).1.settings.lastDeckId = none
    ∧ settingsInv (deleteDeck wStore2 "d1").1 :=
  ⟨c5_lastDeckId_absent_invariant.2.2.2.2.2.2.2.2.1 wStore2 wPatchRememberOff
      (by decide) (by decide),
   c5_lastDeckId_absent_invariant.2.2.2.2.2.2.2.2.2 wStore1n (some "zz")
      (fun _ => rfl) (by decide),
   c5_lastDeckId_absent_invariant.2.2.1 wStore2 "d1"
      (fun h => absurd h (by decide))⟩

/-! ## Schema-validator lemmas and claims C6, C7 -/

/-- Claim C6: a deck id with no `cardsByDeck` entry makes `storeSchema`
validation fail with the issue naming that deck, and validation never
succeeds (never auto-repairs) on such input. -/
theorem c6_missing_entry_fails :
    (∀ j v, storeBaseParse j = .ok v →
      ∀ d ∈ v.decks, objLookup v.cardsByDeck d.id = none →
      ∃ msgs, storeSchemaParse j = .error msgs
        ∧ ("Missing cards array for deck " ++ d.id) ∈ msgs)
    ∧ (∀ j v, storeSchemaParse j = .ok v →
      ∀ d ∈ v.decks, (objLookup v.cardsByDeck d.id).isSome = true) := by
  constructor
  · intro j v hbase d hd hlook
    have hdmem : ("Missing cards array for deck " ++ d.id) ∈ missingCardsIssues v := by
      unfold missingCardsIssues
      exact List.mem_map_of_mem _ (List.mem_filter.mpr ⟨hd, by simp [hlook]⟩)
    cases hiss : missingCardsIssues v with
    | nil => rw [hiss] at hdmem; exact absurd hdmem (by simp)
    | cons a rest =>
      refine ⟨a :: rest, ?_, hiss ▸ hdmem⟩
      simp only [storeSchemaParse, hbase, hiss]
  · intro j v hok d hd
    cases hbase : storeBaseParse j with
    | error e =>
      simp only [storeSchemaParse, hbase] at hok
      exact Except.noConfusion hok
    | ok v' =>
      simp only [storeSchemaParse, hbase] at hok
      cases hiss : missingCardsIssues v' with
      | cons a rest =>
        rw [hiss] at hok
        simp at hok
      | nil =>
        rw [hiss] at hok
        simp at hok
        subst hok
        by_contra hnone
        have hisnone : (objLookup v'.cardsByDeck d.id).isNone = true := by
          cases hl : objLookup v'.cardsByDeck d.id with
          | none => rfl
          | some x => exact absurd (by rw [hl]; rfl) hnone
        have hmem : ("Missing cards array for deck " ++ d.id) ∈ missingCardsIssues v' := by
          unfold missingCardsIssues
          exact List.mem_map_of_mem _ (List.mem_filter.mpr ⟨hd, hisnone⟩)
        rw [hiss] at hmem
        exact absurd hmem (by simp)

/-- Witness for C6. -/
theorem c6_witness :
    storeSchemaParse wJsonMissingEntry = .error ["Missing cards array for deck " ++ "d1"]
    ∧ ("Missing cards array for deck " ++ "d1")
        ∈ ["Missing cards array for deck " ++ "d1"] := by
  obtain ⟨msgs, he, hm⟩ := c6_missing_entry_fails.1 wJsonMissingEntry
    { decks := [{ id := "d1", title := "T", description := none
                  createdAt := "7", updatedAt := "7" }]
      cardsByDeck := [], settings := none }
    (by decide)
    { id := "d1", title := "T", description := none, createdAt := "7", updatedAt := "7" }
    (by decide) (by decide)
  have hc : storeSchemaParse wJsonMissingEntry
      = .error ["Missing cards array for deck " ++ "d1"] := by decide
  rw [he] at hc
  have hmsgs : msgs = ["Missing cards array for deck " ++ "d1"] :=
    (Except.error.injEq _ _).mp hc
  exact ⟨hmsgs ▸ he, hmsgs ▸ hm⟩

theorem studyModeCatch_default {v : Option Json} (h1 : v ≠ some (.str "ordered"))
    (h2 : v ≠ some (.str "shuffle")) : studyModeCatch v = .ordered := by
  unfold studyModeCatch
  split
  · exact absurd rfl h1
  · exact absurd rfl h2
  · rfl

theorem boolCatch_default {dflt : Bool} {v : Option Json}
    (h : ∀ b, v ≠ some (.bool b)) : boolCatch dflt v = dflt := by
  unfold boolCatch
  split
  · rename_i b
    exact absurd rfl (h b)
  · rfl

/-- Claim C7 (amended): the three `.catch` settings fields
(`defaultStudyMode`, `rememberLastDeck`, `reducedMotion`) are individually
replaced by their defaults when absent or invalid, without failing the
settings object — in particular an invalid `defaultStudyMode` falls back to
`"ordered"`.  But `lastDeckId` is not such a field: a value that is neither a
string, `null`, nor absent fails the settings validation (and with it the
whole store validation — see the counterexample). -/
theorem c7_settings_fail_open_amended :
    (∀ fields,
      (jGet fields "lastDeckId" = none ∨ jGet fields "lastDeckId" = some .null
        ∨ ∃ s, jGet fields "lastDeckId" = some (.str s)) →
      ∃ st, settingsSchemaParse (.obj fields) = .ok st
        ∧ (jGet fields "defaultStudyMode" ≠ some (.str "ordered") →
           jGet fields "defaultStudyMode" ≠ some (.str "shuffle") →
           st.defaultStudyMode = .ordered)
        ∧ ((∀ b, jGet fields "rememberLastDeck" ≠ some (.bool b)) →
           st.rememberLastDeck = false)
        ∧ ((∀ b, jGet fields "reducedMotion" ≠ some (.bool b)) →
           st.reducedMotion = false))
    ∧ (∀ fields v, jGet fields "lastDeckId" = some v →
        (∀ s, v ≠ .str s) → v ≠ .null →
        settingsSchemaParse (.obj fields) = .error ["lastDeckId: Expected string"]) := by
  constructor
  · intro fields hlast
    rcases hlast with h | h | ⟨s, h⟩
    · refine ⟨{ defaultStudyMode := studyModeCatch (jGet fields "defaultStudyMode")
                rememberLastDeck := boolCatch false (jGet fields "rememberLastDeck")
                reducedMotion := boolCatch false (jGet fields "reducedMotion")
                lastDeckId := none }, ?_, ?_, ?_, ?_⟩
      · simp only [settingsSchemaParse, h]
      · exact fun h1 h2 => studyModeCatch_default h1 h2
      · exact fun hb => boolCatch_default hb
      · exact fun hb => boolCatch_default hb
    · refine ⟨{ defaultStudyMode := studyModeCatch (jGet fields "defaultStudyMode")
                rememberLastDeck := boolCatch false (jGet fields "rememberLastDeck")
                reducedMotion := boolCatch false (jGet fields "reducedMotion")
                lastDeckId := none }, ?_, ?_, ?_, ?_⟩
      · simp only [settingsSchemaParse, h]
      · exact fun h1 h2 => studyModeCatch_default h1 h2
      · exact fun hb => boolCatch_default hb
      · exact fun hb => boolCatch_default hb
    · refine ⟨{ defaultStudyMode := studyModeCatch (jGet fields "defaultStudyMode")
                rememberLastDeck := boolCatch false (jGet fields "rememberLastDeck")
                reducedMotion := boolCatch false (jGet fields "reducedMotion")
                lastDeckId := some s }, ?_, ?_, ?_, ?_⟩
      · simp only [settingsSchemaParse, h]
      · exact fun h1 h2 => studyModeCatch_default h1 h2
      · exact fun hb => boolCatch_default hb
      · exact fun hb => boolCatch_default hb
  · intro fields v hv hnstr hnnull
    cases v with
    | null => exact absurd rfl hnnull
    | str s => exact absurd rfl (hnstr s)
    | bool b => simp [settingsSchemaParse, hv]
    | num n => simp [settingsSchemaParse, hv]
    | arr xs => simp [settingsSchemaParse, hv]
    | obj fs => simp [settingsSchemaParse, hv]

/-- Counterexample for C7 as stated: a settings field of the wrong type
(`lastDeckId: 5`) makes the whole store validation fail instead of being
individually defaulted. -/
theorem c7_counterexample :
    storeSchemaParse (Json.obj [("decks", Json.arr []), ("cardsByDeck", Json.obj []),
      ("settings", Json.obj [("lastDeckId", Json.num 5)])])
      = .error ["lastDeckId: Expected string"] := by decide

/-- Witness for C7. -/
theorem c7_witness :
    settingsSchemaParse (.obj [("lastDeckId", Json.num 5)])
      = .error ["lastDeckId: Expected string"] :=
  c7_settings_fail_open_amended.2 [("lastDeckId", Json.num 5)] (Json.num 5) rfl
    (fun _ h => Json.noConfusion h) (fun h => Json.noConfusion h)

/-! ## Hydration lemmas and claim C10 -/

theorem mapExcept_ok_length {f : α → Except ε β} :
    ∀ {l : List α} {l' : List β}, mapExcept f l = .ok l' → l'.length = l.length := by
  intro l
  induction l with
  | nil =>
    intro l' h
    simp only [mapExcept, Except.ok.injEq] at h
    subst h
    rfl
  | cons x xs ih =>
    intro l' h
    simp only [mapExcept] at h
    cases hx : f x with
    | error e => rw [hx] at h; exact absurd h (by simp)
    | ok y =>
      rw [hx] at h
      cases hxs : mapExcept f xs with
      | error e => rw [hxs] at h; exact absurd h (by simp)
      | ok ys =>
        rw [hxs] at h
        simp only [Except.ok.injEq] at h
        subst h
        simp [ih hxs]

theorem sample_normalize_ok (env : Env) :
    ∃ s, normalizeStore (createSampleStore env) = .ok s := by
  have h1 : ∃ l, mapExcept normalizeDeck (createSampleStore env).decks = .ok l := by
    simp only [createSampleStore, mapExcept, normalizeDeck, dateParse_dateToISO]
    exact ⟨_, rfl⟩
  obtain ⟨l, hm⟩ := h1
  exact ⟨_, normalizeStore_eq_ok_of hm⟩

theorem hydrateSeed_decks {env : Env} {s : StoreState} {w : Option StoreState}
    (h : hydrateSeed env = .ok (s, w)) : s.decks.length = 2 := by
  unfold hydrateSeed at h
  cases hn : normalizeStore (createSampleStore env) with
  | error e => rw [hn] at h; exact absurd h (by simp)
  | ok s' =>
    rw [hn] at h
    simp only [Except.ok.injEq, Prod.mk.injEq] at h
    obtain ⟨hs, -⟩ := h
    subst hs
    have hlen := mapExcept_ok_length (normalizeStore_eq_ok hn).1
    rw [hlen]
    rfl

/-- Claim C10: a persisted record that validates but has zero decks is
discarded — hydration re-seeds the fixed two-deck sample data and writes it
back — and hydration never returns an empty-but-valid store. -/
theorem c10_empty_store_reseeds :
    (∀ env j parsed, storeSchemaParse j = .ok parsed → parsed.decks = [] →
      ∃ s, normalizeStore (createSampleStore env) = .ok s
        ∧ hydrateFromStorage env (some j) = .ok (s, some s)
        ∧ s.decks.length = 2)
    ∧ (∀ env slot s w, hydrateFromStorage env slot = .ok (s, w) → s.decks ≠ []) := by
  constructor
  · intro env j parsed hparse hdecks
    obtain ⟨s, hs⟩ := sample_normalize_ok env
    have hseed : hydrateSeed env = .ok (s, some s) := by
      unfold hydrateSeed
      rw [hs]
    refine ⟨s, hs, ?_, ?_⟩
    · simp [hydrateFromStorage, hparse, hdecks, hseed]
    · exact hydrateSeed_decks hseed
  · intro env slot s w h
    have hlen2 : s.decks.length = 2 → s.decks ≠ [] := by
      intro h2 hnil
      rw [hnil] at h2
      exact absurd h2 (by decide)
    cases slot with
    | none =>
      simp only [hydrateFromStorage] at h
      exact hlen2 (hydrateSeed_decks h)
    | some j =>
      simp only [hydrateFromStorage] at h
      cases hp : storeSchemaParse j with
      | error e =>
        simp only [hp] at h
        exact hlen2 (hydrateSeed_decks h)
      | ok parsed =>
        simp only [hp] at h
        by_cases he : parsed.decks.isEmpty
        · rw [if_pos he] at h
          exact hlen2 (hydrateSeed_decks h)
        · rw [if_neg he] at h
          split at h
          · exact hlen2 (hydrateSeed_decks h)
          · rename_i n hn
            simp only [Except.ok.injEq, Prod.mk.injEq] at h
            obtain ⟨hns, -⟩ := h
            subst hns
            have hlen := mapExcept_ok_length (normalizeStore_eq_ok hn).1
            intro hnil
            rw [hnil] at hlen
            have hne : parsed.decks ≠ [] := by
              intro hd
              rw [hd] at he
              exact he rfl
            cases hd : parsed.decks with
            | nil => exact hne hd
            | cons a l =>
              rw [hd] at hlen
              exact absurd hlen.symm (by simp)

/-! ## Import lemmas and claims C8, C9 -/

theorem string_length_pos_of_ne {s : String} (h : s ≠ "") : 0 < s.length := by
  obtain ⟨l⟩ := s
  cases l with
  | nil => exact absurd rfl h
  | cons c cs => simp [String.length]

theorem string_ne_of_length_pos {s : String} (h : 0 < s.length) : s ≠ "" := by
  intro he
  subst he
  exact absurd h (by decide)

theorem mem_sanitizedCards {raw : List CardInput} {c : CardInput} :
    c ∈ sanitizedCards raw
      ↔ ∃ r ∈ raw, jsTrim r.front = c.front ∧ jsTrim r.back = c.back
          ∧ c.front ≠ "" ∧ c.back ≠ "" := by
  unfold sanitizedCards
  constructor
  · intro hc
    obtain ⟨hm, hp⟩ := List.mem_filter.mp hc
    obtain ⟨r, hr, he⟩ := List.mem_map.mp hm
    subst he
    simp only [Bool.and_eq_true, decide_eq_true_eq] at hp
    obtain ⟨hf, hb⟩ := hp
    exact ⟨r, hr, rfl, rfl, string_ne_of_length_pos hf, string_ne_of_length_pos hb⟩
  · rintro ⟨r, hr, hf, hb, hnf, hnb⟩
    obtain ⟨cf, cb⟩ := c
    simp only at hf hb hnf hnb
    apply List.mem_filter.mpr
    constructor
    · exact List.mem_map.mpr ⟨r, hr, by rw [hf, hb]⟩
    · simp only [Bool.and_eq_true, decide_eq_true_eq]
      exact ⟨string_length_pos_of_ne hnf, string_length_pos_of_ne hnb⟩

/-- Claim C8: the spec's quoted-CSV example parses to exactly the two stated
cards, with doubled quotes undoubled and the embedded comma preserved — both
as raw `parseCsv` rows and after `parseCsvFile`'s sanitizing. -/
theorem c8_csv_quoted_example :
    parseCsv wCsvText
      = .ok [{ front := "Greeting, friendly", back := "Hello, \"friend\"!" },
             { front := "Affirmation", back := "You are capable" }]
    ∧ parseCsvFileCards wCsvText
      = .ok [{ front := "Greeting, friendly", back := "Hello, \"friend\"!" },
             { front := "Affirmation", back := "You are capable" }] := by
  constructor
  · decide
  · decide

/-- Claim C9: for every payload the import schema accepts, the sanitized card
set keeps exactly the cards that are nonempty after trimming (trimmed), and
the presence of empty cards never causes rejection — whenever at least one
card survives, the import preview succeeds and carries exactly the surviving
cards (`parseJson` rejects only when no card has usable content). -/
theorem c9_import_drops_empty_cards :
    ∀ j parsed, importJsonParse j = .ok parsed →
      (∀ c : CardInput,
        c ∈ sanitizedCards (parsed.cards.map (fun rc => { front := rc.front, back := rc.back }))
          ↔ ∃ rc ∈ parsed.cards, jsTrim rc.front = c.front ∧ jsTrim rc.back = c.back
              ∧ c.front ≠ "" ∧ c.back ≠ "")
      ∧ ((∃ rc ∈ parsed.cards, jsTrim rc.front ≠ "" ∧ jsTrim rc.back ≠ "") →
        ∃ pre, parseJsonPreview j = .ok pre
          ∧ pre.cards = sanitizedCards (parsed.cards.map (fun rc =>
              { front := rc.front, back := rc.back }))) := by
  intro j parsed hok
  constructor
  · intro c
    rw [mem_sanitizedCards]
    constructor
    · rintro ⟨r, hr, hf, hb, hnf, hnb⟩
      obtain ⟨rc, hrc, hre⟩ := List.mem_map.mp hr
      subst hre
      exact ⟨rc, hrc, hf, hb, hnf, hnb⟩
    · rintro ⟨rc, hrc, hf, hb, hnf, hnb⟩
      exact ⟨{ front := rc.front, back := rc.back }, List.mem_map_of_mem _ hrc,
        hf, hb, hnf, hnb⟩
  · rintro ⟨rc, hrc, hnf, hnb⟩
    have hmem : ({ front := jsTrim rc.front, back := jsTrim rc.back } : CardInput)
        ∈ sanitizedCards (parsed.cards.map (fun rc =>
            ({ front := rc.front, back := rc.back } : CardInput))) :=
      mem_sanitizedCards.mpr ⟨{ front := rc.front, back := rc.back },
        List.mem_map_of_mem _ hrc, rfl, rfl, hnf, hnb⟩
    have hne : (sanitizedCards (parsed.cards.map (fun rc =>
        ({ front := rc.front, back := rc.back } : CardInput)))).isEmpty = false := by
      cases hs : sanitizedCards (parsed.cards.map (fun rc =>
          ({ front := rc.front, back := rc.back } : CardInput))) with
      | nil => rw [hs] at hmem; exact absurd hmem (by simp)
      | cons a l => rfl
    refine ⟨{ deckTitle := if parsed.deck.title = "" then DEFAULT_DECK_TITLE
                           else parsed.deck.title
              deckDescription := parsed.deck.description
              cards := sanitizedCards (parsed.cards.map (fun rc =>
                { front := rc.front, back := rc.back })) }, ?_, rfl⟩
    simp only [parseJsonPreview, hok, hne, Bool.false_eq_true, if_false]

/-- Witness for C9. -/
theorem c9_witness :
    (parseJsonPreview wImportJson).map (fun p => p.cards)
      = .ok [{ front := "a", back := "b" }] := by
  obtain ⟨-, h2⟩ := c9_import_drops_empty_cards wImportJson
    { deck := { id := none, title := "T", description := none }
      cards := [{ id := none, front := " ", back := " " },
                { id := none, front := "a ", back := " b" }] } (by decide)
  obtain ⟨pre, hok, hcards⟩ := h2
    ⟨{ id := none, front := "a ", back := " b" }, by decide, by decide, by decide⟩
  rw [hok]
  simp only [Except.map]
  rw [hcards]
  decide

set_option maxRecDepth 200000 in
/-- Witness for C10. -/
theorem c10_witness :
    (hydrateFromStorage wEnv (some wJsonEmptyStore)).map
      (fun p => (p.1.decks.length, decide (p.2 = some p.1))) = .ok (2, true) := by
  obtain ⟨s, h1, h2, h3⟩ := c10_empty_store_reseeds.1 wEnv wJsonEmptyStore
    { decks := [], cardsByDeck := [], settings := none } (by decide) rfl
  rw [h2]
  simp [Except.map, h3]

end Flipcard
